import Mathlib

/-!
# tournifyx: bracket poller/renderer and players-table sorter

A shallow embedding of the two browser scripts of the repository,

* `static/js/bracket.js` (`createMatchCard`, `renderHtmlBracket`, `startBracket`/`poll`),
* `static/js/players-table.js` (`parseNumber`, `init`, the click handler, `sortBy`),

followed by the theorems about them.

Conventions of the embedding.

* A JavaScript value that is a string, `null` or `undefined` is a `JField`; its truthiness is
  `JField.truthy` (a non-empty string).
* The DOM is a tree of `Node`s.  Markup assigned through `innerHTML` is kept as the assigned
  source text (`Node.html`), text assigned through `textContent` as a text node (`Node.text`).
* A function that can throw part-way returns the state it leaves behind together with a flag
  telling whether it completed.
* `Array.prototype.sort` is the stable sort by the comparator (ECMAScript 2019), embedded as
  an insertion sort that ends as soon as a call of the comparator throws.
* A number read by `Number` is a double: an infinity or an integer count of units of
  `2 ^ (-1074)`, rounded to nearest with ties to even.
* `String.prototype.toLowerCase`, and `String(n)` for an integer `n` beyond `2 ^ 53`, are
  parameters of the embedding: the theorems hold for every such function.
-/

namespace Tournifyx

/-! ## JavaScript values and the DOM -/

/-- A JavaScript value that is a string or is missing: `undefined` (the property is absent),
`null`, or a string. -/
inductive JField where
  | undefined : JField
  | null : JField
  | str : String → JField
  deriving DecidableEq, Repr

/-- JavaScript truthiness of a string-or-missing value: `undefined`, `null` and the empty
string are falsy, every other string is truthy. -/
def JField.truthy : JField → Bool
  | .str s => s != ""
  | _ => false

/-- String conversion as done by a template literal `${v}`. -/
def JField.toJsString : JField → String
  | .undefined => "undefined"
  | .null => "null"
  | .str s => s

/-- A DOM node. Every element the scripts create is a `div`. -/
inductive Node where
  /-- an element `div` with its class list and its child nodes -/
  | div (classList : List String) (children : List Node) : Node
  /-- a text node -/
  | text (data : String) : Node
  /-- the nodes the browser parses from markup assigned through `innerHTML` -/
  | html (markup : String) : Node

/-- The child list an element has after `el.innerHTML = s`. -/
def setInnerHTML (s : String) : List Node :=
  if s = "" then [] else [Node.html s]

/-- The child list an element has after `el.textContent = s`. -/
def setTextContent (s : String) : List Node :=
  if s = "" then [] else [Node.text s]

/-- The class list of a node (empty for text and parsed markup). -/
def Node.classes : Node → List String
  | .div cl _ => cl
  | _ => []

/-- The child nodes of a node. -/
def Node.childNodes : Node → List Node
  | .div _ ch => ch
  | _ => []

/-! ## bracket.js: data -/

/-- A match of the knockout document: `{ player1, player2?, winner_name? }`. -/
structure Match where
  player1 : String
  player2 : JField
  winner_name : JField
  deriving DecidableEq, Repr

/-- A stage of the knockout document: `{ label, matches }`; the field `matchList` is the
source's `stage.matches` (a reserved word here), and `none` is a stage object without a
`matches` property, on which `stage.matches.forEach` throws. -/
structure Stage where
  label : String
  matchList : Option (List Match)
  deriving DecidableEq, Repr

/-- The body of a response of `/tournament/{id}/knockout-json/`: the `stages` property
(`none` when absent or `null`) and every other property of the object. -/
structure Response where
  stages : Option (List Stage)
  others : List (String × String)
  deriving DecidableEq, Repr

/-! ## JSON.stringify on stage lists -/

/-- A hexadecimal digit, lower case. -/
def hexDigit (n : Nat) : Char :=
  if n < 10 then Char.ofNat (48 + n) else Char.ofNat (87 + n)

/-- The escape of one character inside a JSON string (QuoteJSONString). -/
def jsonEscapeChar (c : Char) : List Char :=
  if c = '"' then ['\\', '"']
  else if c = '\\' then ['\\', '\\']
  else if c.toNat = 8 then ['\\', 'b']
  else if c.toNat = 9 then ['\\', 't']
  else if c.toNat = 10 then ['\\', 'n']
  else if c.toNat = 12 then ['\\', 'f']
  else if c.toNat = 13 then ['\\', 'r']
  else if c.toNat < 32 then
    ['\\', 'u', '0', '0', hexDigit (c.toNat / 16), hexDigit (c.toNat % 16)]
  else [c]

/-- The JSON text of a string: `JSON.stringify(s)`. -/
def jsonQuote (s : String) : String :=
  String.mk ('"' :: (s.data.flatMap jsonEscapeChar ++ ['"']))

/-- One member `"key":value` of an object, or nothing when the value is `undefined`. -/
def jsonMember (key : String) : JField → List String
  | .undefined => []
  | .null => [jsonQuote key ++ ":null"]
  | .str s => [jsonQuote key ++ ":" ++ jsonQuote s]

/-- The JSON text of an object with the given member texts. -/
def jsonObject (members : List String) : String :=
  "\x7b" ++ ",".intercalate members ++ "\x7d"

/-- The JSON text of an array with the given element texts. -/
def jsonArray (elems : List String) : String :=
  "[" ++ ",".intercalate elems ++ "]"

/-- The text `JSON.stringify(m)` of a match. -/
def stringifyMatch (m : Match) : String :=
  jsonObject ([jsonQuote "player1" ++ ":" ++ jsonQuote m.player1]
    ++ jsonMember "player2" m.player2 ++ jsonMember "winner_name" m.winner_name)

/-- The text `JSON.stringify(stage)` of a stage. -/
def stringifyStage (s : Stage) : String :=
  jsonObject ([jsonQuote "label" ++ ":" ++ jsonQuote s.label]
    ++ (match s.matchList with
        | none => []
        | some ms => [jsonQuote "matches" ++ ":" ++ jsonArray (ms.map stringifyMatch)]))

/-- The text `JSON.stringify(stages)` of a stage list. -/
def jsonStringify (stages : List Stage) : String :=
  jsonArray (stages.map stringifyStage)

/-! ## bracket.js: rendering -/

/-- The source's `clearContainer(c)`: `c.innerHTML = ''`. -/
def clearContainer (_c : List Node) : List Node := setInnerHTML ""

/-- The source's `createMatchCard(m)`. -/
def createMatchCard (m : Match) : Node :=
  let classList := ["match-card"] ++ (if !m.winner_name.truthy then ["pending"] else [])
  let p1 := Node.div [] (setInnerHTML
    ("<div class=\"player-name\">" ++ m.player1 ++ "</div>"
      ++ (if m.player2.truthy then "" else "<div class=\"player-sub\">vs</div>")))
  let p2 := Node.div [] (setInnerHTML
    ("<div class=\"player-sub\">"
      ++ (if m.player2.truthy then m.player2.toJsString else "BYE") ++ "</div>"))
  let inner := Node.div ["match-players"] [p1, p2]
  let winLine := if m.winner_name.truthy then
      [Node.div ["winner-line"] (setTextContent ("Winner is " ++ m.winner_name.toJsString))]
    else []
  Node.div classList ([inner] ++ winLine)

/-- The column built for one stage by the body of `stages.forEach` in `renderHtmlBracket`;
`none` when `stage.matches.forEach` throws because the stage has no `matches`. -/
def bracketColumn (stage : Stage) : Option Node :=
  let header := Node.div ["bracket-header"] (setTextContent stage.label)
  match stage.matchList with
  | none => none
  | some ms => some (Node.div ["bracket-column"] ([header] ++ ms.map createMatchCard))

/-- The columns built by `stages.forEach`, in order; `none` as soon as one stage throws. -/
def bracketColumns : List Stage → Option (List Node)
  | [] => some []
  | stage :: rest =>
    match bracketColumn stage with
    | none => none
    | some col =>
      match bracketColumns rest with
      | none => none
      | some cols => some (col :: cols)

/-- The source's `renderHtmlBracket(container, stages)`: the children of the container
afterwards, and whether the call completed (`false`: it threw part-way). The grid is built
detached and appended last, so a throw leaves the container cleared. -/
def renderHtmlBracket (container : List Node) (stages : List Stage) : List Node × Bool :=
  let cleared := clearContainer container
  if stages.length = 0 then
    (setInnerHTML "<div class=\"text-gray-400\">No bracket yet.</div>", true)
  else
    match bracketColumns stages with
    | none => (cleared, false)
    | some cols => (cleared ++ [Node.div ["bracket-grid"] cols], true)

/-! ## bracket.js: the poll loop of `startBracket` -/

/-- What the state of `startBracket`'s closure and of the page is between two poll ticks:
`lastJson`, the children of the container, and the number of calls of `renderHtmlBracket`
so far (a render-count spy). -/
structure PollState where
  lastJson : Option String
  container : List Node
  renderCalls : Nat

/-- The outcome of `await fetchStages(tournamentId)` in one tick. -/
inductive Fetched where
  /-- the fetch or the JSON parse threw -/
  | failed : Fetched
  /-- the parsed response body -/
  | ok (data : Response) : Fetched

/-- The state right after `startBracket` found the container, before the first tick. -/
def startBracket (container : List Node) : PollState :=
  { lastJson := none, container := container, renderCalls := 0 }

/-- The source's `data.stages || []`. -/
def Response.stagesOrEmpty (data : Response) : List Stage :=
  match data.stages with
  | some stages => stages
  | none => []

/-- One tick of the source's `poll()`: the `try` block, with the `catch` that only logs. -/
def poll (st : PollState) : Fetched → PollState
  | .failed => st
  | .ok data =>
    let stages := data.stagesOrEmpty
    let jsonStr := jsonStringify stages
    if some jsonStr ≠ st.lastJson then
      match renderHtmlBracket st.container stages with
      | (container, true) =>
        { lastJson := some jsonStr, container := container, renderCalls := st.renderCalls + 1 }
      | (container, false) =>
        { lastJson := st.lastJson, container := container, renderCalls := st.renderCalls + 1 }
    else st

/-- The state after a sequence of poll ticks. -/
def pollAll (st : PollState) (ticks : List Fetched) : PollState :=
  ticks.foldl poll st

/-! ## players-table.js: numbers -/

/-- A JavaScript number other than `NaN`: an infinity, or a finite double, given by the
integer number of units of `2 ^ (-1074)` it is (every finite double is such a multiple).
The negative zero is not told apart from zero. -/
inductive JsNumber where
  | negInf : JsNumber
  | finite (units : Int) : JsNumber
  | posInf : JsNumber
  deriving DecidableEq, Repr

/-- The order of JavaScript numbers: `a <= b`. -/
def JsNumber.le : JsNumber → JsNumber → Prop
  | .negInf, _ => True
  | .finite _, .negInf => False
  | .finite a, .finite b => a ≤ b
  | .finite _, .posInf => True
  | .posInf, .posInf => True
  | .posInf, _ => False

instance JsNumber.decidableLe (a b : JsNumber) : Decidable (a.le b) := by
  cases a <;> cases b <;> unfold JsNumber.le <;> infer_instance

/-- The JavaScript difference `a - b` as `sort` reads a comparator result, that is up to a
positive factor, `NaN` being read as 0: the difference of two finite doubles has the sign
of their exact difference; `Infinity - Infinity` is `NaN`. -/
def JsNumber.sub : JsNumber → JsNumber → Int
  | .finite a, .finite b => a - b
  | .posInf, .posInf => 0
  | .negInf, .negInf => 0
  | .posInf, _ => 1
  | _, .posInf => -1
  | .negInf, _ => -1
  | _, .negInf => 1

/-- The integer nearest to `n / d`, a tie going to the even one. -/
def roundHalfEven (n d : Nat) : Nat :=
  if 2 * (n % d) < d then n / d
  else if d < 2 * (n % d) then n / d + 1
  else if (n / d) % 2 = 0 then n / d
  else n / d + 1

/-- The number of units of `2 ^ (-1074)` in 1. -/
def unitsPerOne : Nat := 2 ^ 1074

/-- The position of the leading binary digit of `n`, for `0 < n < 2 ^ 4096`: the largest
`k` with `2 ^ k ≤ n`, found by bisection; 0 for `n = 0`. -/
def log2Floor (n : Nat) : Nat :=
  [2048, 1024, 512, 256, 128, 64, 32, 16, 8, 4, 2, 1].foldl
    (fun k s => if 2 ^ (k + s) ≤ n then k + s else k) 0

/-- The double nearest to `n / d` (round to nearest, ties to even), in units of
`2 ^ (-1074)`; `none` when the nearest double is `Infinity`. Up to `2 ^ 53` units the
doubles are one unit apart; from `2 ^ (52 + j)` to `2 ^ (53 + j)` units they are `2 ^ j`
units apart; `2 ^ 2098` units are `2 ^ 1024`, beyond the largest double. (For a literal of
more than 20 significant digits ECMAScript lets the engine choose between the two
neighbouring doubles; the engines take the nearest one, as this definition does.) -/
def roundToDouble (n d : Nat) : Option Nat :=
  let x := n * unitsPerOne
  if 2 ^ 2098 ≤ x / d then none
  else
    let j := log2Floor (x / d) - 52
    let r := roundHalfEven x (d * 2 ^ j) * 2 ^ j
    if r < 2 ^ 2098 then some r else none

/-- The value of a decimal digit character. -/
def digitValue (c : Char) : Nat := c.toNat - 48

/-- The value of a string of decimal digits. -/
def digitsValue (ds : List Char) : Nat :=
  ds.foldl (fun acc c => 10 * acc + digitValue c) 0

/-- The source's `.replace(/[^0-9.-]/g,'')`: keep digits, dots and minus signs. -/
def stripNonNumeric (cs : List Char) : List Char :=
  cs.filter (fun c => c.isDigit || c == '.' || c == '-')

/-- An unsigned decimal literal `digits`, `digits.`, `digits.digits` or `.digits` over the
characters left by `stripNonNumeric`: its digits read as one integer and the number of
digits after the dot, so that the literal denotes `n / 10 ^ s`; `none` is `NaN`. -/
def unsignedDecimal (cs : List Char) : Option (Nat × Nat) :=
  let ip := cs.takeWhile Char.isDigit
  match cs.dropWhile Char.isDigit with
  | [] => if ip = [] then none else some (digitsValue ip, 0)
  | '.' :: fr =>
    if fr.all Char.isDigit && !(ip.isEmpty && fr.isEmpty) then
      some (digitsValue (ip ++ fr), fr.length)
    else none
  | _ => none

/-- The double of the decimal `n / 10 ^ s` with the given sign. -/
def decimalToNumber (negative : Bool) (n s : Nat) : JsNumber :=
  match roundToDouble n (10 ^ s) with
  | some units => .finite (if negative then -(units : Int) else (units : Int))
  | none => if negative then .negInf else .posInf

/-- The value of `Number(s)` for a string over digits, dots and minus signs; `none` is `NaN`.
The empty string converts to 0. -/
def stringToNumber (cs : List Char) : Option JsNumber :=
  match cs with
  | [] => some (.finite 0)
  | '-' :: rest => (unsignedDecimal rest).map (fun p => decimalToNumber true p.1 p.2)
  | _ => (unsignedDecimal cs).map (fun p => decimalToNumber false p.1 p.2)

/-- The source's `parseNumber(s)`:
`Number((s||'').toString().replace(/[^0-9.-]/g,'')) || 0`, for `s` a string or absent.
`NaN` and the zeros give 0. -/
def parseNumber (s : Option String) : JsNumber :=
  match stringToNumber (stripNonNumeric (s.getD "").data) with
  | some v => v
  | none => .finite 0

/-! ## players-table.js: strings -/

/-- WhiteSpace and LineTerminator code points of ECMAScript, stripped by `trim` and skipped
by `parseInt`. -/
def isJsWhiteSpace (c : Char) : Bool :=
  [9, 10, 11, 12, 13, 32, 0xA0, 0x1680, 0x2028, 0x2029, 0x202F, 0x205F, 0x3000, 0xFEFF].contains
    c.toNat || (0x2000 ≤ c.toNat && c.toNat ≤ 0x200A)

/-- JavaScript `String.prototype.trim`. -/
def trim (s : String) : String :=
  String.mk ((s.data.dropWhile isJsWhiteSpace).reverse.dropWhile isJsWhiteSpace).reverse

/-- The UTF-16 code units of a character. -/
def utf16 (c : Char) : List Nat :=
  if c.toNat < 0x10000 then [c.toNat]
  else [0xD800 + (c.toNat - 0x10000) / 0x400, 0xDC00 + (c.toNat - 0x10000) % 0x400]

/-- The UTF-16 code units of a string; JavaScript compares strings with `<` and `>`
lexicographically by code unit. -/
def codeUnits (s : String) : List Nat := s.data.flatMap utf16

/-- Lower-casing of ASCII text, an instance of `toLowerCase`. -/
def asciiLowerCase (s : String) : String := String.mk (s.data.map Char.toLower)

/-- JavaScript `v || d` for `v` a string or `null`/`undefined`. -/
def orElse (v : Option String) (d : String) : String :=
  match v with
  | some s => if s = "" then d else s
  | none => d

/-- JavaScript `parseInt(s, 10)` for `s` a string or `undefined`: leading white space is
skipped, then an optional sign and the longest run of decimal digits are read; the result
is the integer read, before its conversion to a double, and `none` is `NaN`. -/
def parseInt (s : Option String) : Option Int :=
  match (s.getD "undefined").data.dropWhile isJsWhiteSpace with
  | '-' :: rest =>
    if rest.takeWhile Char.isDigit = [] then none
    else some (-(digitsValue (rest.takeWhile Char.isDigit) : Int))
  | '+' :: rest =>
    if rest.takeWhile Char.isDigit = [] then none
    else some (digitsValue (rest.takeWhile Char.isDigit) : Int)
  | rest =>
    if rest.takeWhile Char.isDigit = [] then none
    else some (digitsValue (rest.takeWhile Char.isDigit) : Int)

/-- The decimal digits of an integer: an instance of `largeIntegerToString` for pages whose
column indices are below `2 ^ 53`. -/
def decimalDigits (z : Int) : String := toString z

/-- JavaScript `String(n)` for `n` the result of `parseInt`. An integer of magnitude up to
`2 ^ 53` is a double and prints as its decimal digits; for a larger one the text is that of
the nearest double, `largeIntegerToString`. -/
def numberToString (largeIntegerToString : Int → String) (n : Option Int) : String :=
  match n with
  | none => "NaN"
  | some z => if z.natAbs ≤ 2 ^ 53 then toString z else largeIntegerToString z

/-! ## players-table.js: the page -/

/-- A body cell: its `data-value` attribute (`dataset.value`) and its `textContent`. -/
structure Cell where
  dataValue : Option String
  textContent : String
  deriving DecidableEq, Repr

/-- A body row `tr`. `id` is the identity of the DOM node, `empty` is
`classList.contains('empty')`, `children` are its cells. -/
structure Row where
  id : Nat
  empty : Bool
  children : List Cell
  deriving DecidableEq, Repr

/-- A sortable header `th.sortable`: `dataset.index` and `dataset.type` (`none` when the
attribute is absent), whether its class list has `sorted-asc` and `sorted-desc`, and its
`aria-sort` attribute. -/
structure Header where
  index : Option String
  type : Option String
  sortedAsc : Bool
  sortedDesc : Bool
  ariaSort : Option String
  deriving DecidableEq, Repr

/-- The query parameters of the page URL: `searchParams.get`. -/
abbrev Url := String → Option String

/-- The source's `getParam(key)`. -/
def getParam (url : Url) (key : String) : Option String := url key

/-- The source's `setParam(key, val)`, `val = none` being `null`. -/
def setParam (url : Url) (key : String) (val : Option String) : Url :=
  fun k => if k = key then val else url k

/-- The page before `init`: the sortable headers of `#playersTable` in document order, the
rows of its `tbody`, and the URL. -/
structure Page where
  headers : List Header
  tbody : List Row
  url : Url

/-- The page together with the closure of `init`: `rows` is the array captured once by
`init`, `headers` and `tbody` are the live DOM. A header element is named by its position in
`headers`. -/
structure Table where
  headers : List Header
  tbody : List Row
  rows : List Row
  url : Url

/-- The DOM's `tbody.appendChild(r)`: `r` is taken out of the body if it is in it and put
at the end. -/
def appendChild (tbody : List Row) (r : Row) : List Row :=
  tbody.filter (fun x => x.id != r.id) ++ [r]

/-- Apply `f` to the header at position `n`. -/
def modifyHeader (f : Header → Header) : Nat → List Header → List Header
  | _, [] => []
  | 0, h :: hs => f h :: hs
  | n + 1, h :: hs => h :: modifyHeader f n hs

/-- The source's `Array.from(headers).find(h => h.dataset.index === sortKey)`: the first
header whose `data-index` attribute is the string `sortKey`, with its position. -/
def findHeader (sortKey : String) : List Header → Option (Nat × Header)
  | [] => none
  | h :: hs =>
    if h.index = some sortKey then some (0, h)
    else (findHeader sortKey hs).map (fun p => (p.1 + 1, p.2))

/-- The source's `a.children[colIndex]` for `colIndex` the result of `parseInt`: the cell
at that position, `none` (`undefined`) when `colIndex` is `NaN`, negative or not below the
number of cells. -/
def childAt (a : Row) (colIndex : Option Int) : Option Cell :=
  match colIndex with
  | some (Int.ofNat n) => a.children[n]?
  | _ => none

/-- Insertion of `a` into a sorted list with a comparator that can throw (`none`): `a` goes
before the first `b` for which `cmp a b` is not positive. -/
def orderedInsert (cmp : Row → Row → Option Int) (a : Row) : List Row → Option (List Row)
  | [] => some [a]
  | b :: l =>
    match cmp a b with
    | none => none
    | some v =>
      if v ≤ 0 then some (a :: b :: l)
      else
        match orderedInsert cmp a l with
        | none => none
        | some l' => some (b :: l')

/-- JavaScript `Array.prototype.sort(cmp)` on a copy of the array: the stable sort that
puts `a` before `b` unless `cmp a b` is positive, as an insertion sort; `none` when a call
of the comparator throws, which ends the sort. With two or more elements every element is
compared at least once. -/
def arraySort (cmp : Row → Row → Option Int) : List Row → Option (List Row)
  | [] => some []
  | a :: l =>
    match arraySort cmp l with
    | none => none
    | some sorted => orderedInsert cmp a sorted

section Sorter

variable (toLowerCase : String → String) (largeIntegerToString : Int → String)

/-- The sort key of a text cell: the code units of
`(cell.textContent||'').trim().toLowerCase()`. -/
def textKey (cell : Cell) : List Nat :=
  codeUnits (toLowerCase (trim cell.textContent))

/-- The body of the comparator passed to `sort` in `sortBy` (lines 38 to 46), for the two
cells `aCell` and `bCell`. -/
def compareCells (type : Option String) (dir : String) (aCell bCell : Cell) : Int :=
  if type = some "number" then
    if dir = "asc" then (parseNumber aCell.dataValue).sub (parseNumber bCell.dataValue)
    else (parseNumber bCell.dataValue).sub (parseNumber aCell.dataValue)
  else
    let aText := textKey toLowerCase aCell
    let bText := textKey toLowerCase bCell
    if aText < bText then (if dir = "asc" then -1 else 1)
    else if aText > bText then (if dir = "asc" then 1 else -1)
    else 0

/-- The comparator passed to `sort` in `sortBy`; `none` when it throws a `TypeError`
because `a.children[colIndex]` or `b.children[colIndex]` is `undefined`. -/
def compareRows (colIndex : Option Int) (type : Option String) (dir : String)
    (a b : Row) : Option Int :=
  match childAt a colIndex, childAt b colIndex with
  | some aCell, some bCell => some (compareCells toLowerCase type dir aCell bCell)
  | _, _ => none

/-- The direction `sortBy` uses:
`direction || (thElem.classList.contains('sorted-asc') ? 'desc' : 'asc')`. -/
def sortDirection (headers : List Header) (thElem : Nat) (direction : Option String) : String :=
  orElse direction
    (if (headers[thElem]?.map Header.sortedAsc).getD false then "desc" else "asc")

/-- The source's `sortBy(colIndex, type, thElem, direction)`: the table it leaves behind and
whether it completed (`false`: the comparator threw; the sort markers are already moved,
the rows, the URL and `aria-sort` are untouched). -/
def sortBy (t : Table) (colIndex : Option Int) (type : Option String) (thElem : Nat)
    (direction : Option String) : Table × Bool :=
  let dir := sortDirection t.headers thElem direction
  -- remove sort classes
  let headers := t.headers.map (fun h => { h with sortedAsc := false, sortedDesc := false })
  let headers := modifyHeader
    (fun h => if dir = "asc" then { h with sortedAsc := true } else { h with sortedDesc := true })
    thElem headers
  -- sort rows
  match arraySort (compareRows toLowerCase colIndex type dir) t.rows with
  | none => ({ headers := headers, tbody := t.tbody, rows := t.rows, url := t.url }, false)
  | some sorted =>
    -- reattach
    let tbody := sorted.foldl appendChild t.tbody
    -- update URL params
    let url := setParam t.url "sort" (some (numberToString largeIntegerToString colIndex))
    let url := setParam url "dir" (some dir)
    -- update aria-sort
    let headers := headers.map (fun h => { h with ariaSort := some "none" })
    let headers := modifyHeader
      (fun h => { h with ariaSort := some (if dir = "asc" then "ascending" else "descending") })
      thElem headers
    ({ headers := headers, tbody := tbody, rows := t.rows, url := url }, true)

/-- The click listener `init` puts on the header at position `i`:
`sortBy(index, th.dataset.type || 'text', th)` with `index = parseInt(th.dataset.index,10)`;
the table after the listener ran, to its end or to the throw. -/
def click (t : Table) (i : Nat) : Table :=
  match t.headers[i]? with
  | some th =>
    (sortBy toLowerCase largeIntegerToString t (parseInt th.index)
      (some (orElse th.type "text")) i none).1
  | none => t

/-- The source's `init()` on a page that has the table; the table after `init` ran, to its
end or to the throw of the restoring `sortBy`. -/
def init (page : Page) : Table :=
  let rows := page.tbody.filter (fun r => !r.empty)
  let t : Table := { headers := page.headers, tbody := page.tbody, rows := rows, url := page.url }
  -- restore sort from URL
  let sortKey := getParam page.url "sort"
  let sortDir := orElse (getParam page.url "dir") "desc"
  match sortKey with
  | some k =>
    if k = "" then t
    else
      match findHeader k page.headers with
      | some (i, target) =>
        (sortBy toLowerCase largeIntegerToString t (parseInt target.index) target.type i
          (some sortDir)).1
      | none => t
  | none => t

/-- The table after a sequence of clicks on the headers at the given positions. -/
def clicks (t : Table) (is : List Nat) : Table :=
  is.foldl (click toLowerCase largeIntegerToString) t

end Sorter

/-! ## Predicates used by the statements -/

/-- The stage list of a tick is well formed: the fetch failed (nothing is rendered), or
every stage of the response has a `matches` array. -/
def Fetched.wellFormed : Fetched → Bool
  | .failed => true
  | .ok data => data.stagesOrEmpty.all (fun s => s.matchList.isSome)

/-- The display and the recorded snapshot agree: when `lastJson` is a string, it is the
serialization of a stage list for which `renderHtmlBracket` completes and leaves exactly
the container's present children. -/
def InSync (st : PollState) : Prop :=
  ∀ j, st.lastJson = some j →
    ∃ stages, jsonStringify stages = j ∧
      ∀ c, renderHtmlBracket c stages = (st.container, true)

/-! ## Concrete inputs -/

/-- A one-stage document with one pending match. -/
def finalStage : List Stage := [⟨"Final", some [⟨"ann", .str "bob", .null⟩]⟩]

/-- The same stage without its `matches` array. -/
def finalStageNoMatches : List Stage := [⟨"Final", none⟩]

/-- Two ticks: a well-formed document, then one whose stage has no `matches`. -/
def ticksWithThrow : List Fetched :=
  [.ok ⟨some finalStage, []⟩, .ok ⟨some finalStageNoMatches, []⟩]

/-- Three ticks: a document, a failed fetch, an empty document with another property. -/
def ticksWellFormed : List Fetched :=
  [.ok ⟨some finalStage, []⟩, .failed, .ok ⟨none, [("status", "draw pending")]⟩]

/-! ## Predicates used by the statements: the table -/

/-- The rows of the body that take part in sorting: those without the class `empty`. -/
def participating (tbody : List Row) : List Row := tbody.filter (fun r => !r.empty)

/-- The placeholder rows of the body: those with the class `empty`. -/
def placeholders (tbody : List Row) : List Row := tbody.filter (fun r => r.empty)

/-- The closure of `init` and the live DOM agree: the rows of the body are distinct nodes
and the captured `rows` are the participating rows of the body, in some order. -/
def Consistent (t : Table) : Prop :=
  (t.tbody.map Row.id).Nodup ∧ t.rows.Perm (participating t.tbody)

/-- Every one of the rows has a cell at `colIndex`, so that the comparator of `sortBy` does
not throw on them. -/
def HasColumn (colIndex : Option Int) (rows : List Row) : Prop :=
  ∀ r ∈ rows, (childAt r colIndex).isSome = true

instance HasColumn.decidable (colIndex : Option Int) (rows : List Row) :
    Decidable (HasColumn colIndex rows) := by
  unfold HasColumn
  infer_instance

/-- A plain decimal integer with an optional sign: `-` or `+`, then one or more digits. -/
def isPlainInteger (s : String) : Bool :=
  match s.data with
  | '-' :: ds => !ds.isEmpty && ds.all Char.isDigit
  | '+' :: ds => !ds.isEmpty && ds.all Char.isDigit
  | ds => !ds.isEmpty && ds.all Char.isDigit

/-- The integer a plain decimal integer denotes. -/
def integerValue (s : String) : Int :=
  match s.data with
  | '-' :: ds => -(digitsValue ds : Int)
  | '+' :: ds => (digitsValue ds : Int)
  | ds => (digitsValue ds : Int)

/-- The row has a cell at `colIndex` whose `data-value` is a plain decimal integer with an
optional sign. -/
def hasIntegerValue (colIndex : Option Int) (r : Row) : Bool :=
  match childAt r colIndex with
  | some cell =>
    match cell.dataValue with
    | some s => isPlainInteger s
    | none => false
  | none => false

/-- The header carries exactly the marker and the `aria-sort` of the direction `dir`:
ascending for `'asc'`, descending for anything else. -/
def Header.marks (h : Header) (dir : String) : Prop :=
  if dir = "asc" then
    h.sortedAsc = true ∧ h.sortedDesc = false ∧ h.ariaSort = some "ascending"
  else
    h.sortedAsc = false ∧ h.sortedDesc = true ∧ h.ariaSort = some "descending"

/-- The header carries no marker and has `aria-sort` `none`. -/
def Header.unmarked (h : Header) : Prop :=
  h.sortedAsc = false ∧ h.sortedDesc = false ∧ h.ariaSort = some "none"

/-- The cell of a row at `colIndex`, a blank cell standing in when the row has none there;
it makes the comparator total, for the account of a sort that completes. -/
def cellOrBlank (colIndex : Option Int) (r : Row) : Cell :=
  (childAt r colIndex).getD ⟨none, ""⟩

section SorterPredicates

variable (toLowerCase : String → String)

/-- The key of the cell `a` is at most that of `b`: by the number `parseNumber` reads from
`data-value` for the type `number`, by the trimmed lower-cased text otherwise. -/
def cellLe (type : Option String) (a b : Cell) : Prop :=
  if type = some "number" then (parseNumber a.dataValue).le (parseNumber b.dataValue)
  else textKey toLowerCase a ≤ textKey toLowerCase b

/-- Both rows have a cell at `colIndex` and the key of `a` there is at most that of `b`. -/
def keyLe (colIndex : Option Int) (type : Option String) (a b : Row) : Prop :=
  match childAt a colIndex, childAt b colIndex with
  | some aCell, some bCell => cellLe toLowerCase type aCell bCell
  | _, _ => False

/-- The rows are in non-decreasing order of their keys at `colIndex`. -/
def Ascending (colIndex : Option Int) (type : Option String) (rows : List Row) : Prop :=
  rows.Pairwise (keyLe toLowerCase colIndex type)

/-- The rows are in non-increasing order of their keys at `colIndex`. -/
def Descending (colIndex : Option Int) (type : Option String) (rows : List Row) : Prop :=
  rows.Pairwise (fun a b => keyLe toLowerCase colIndex type b a)

/-- The rows are in the order that the direction `dir` asks for: ascending for `'asc'`,
descending for anything else. -/
def InOrder (colIndex : Option Int) (type : Option String) (dir : String)
    (rows : List Row) : Prop :=
  if dir = "asc" then Ascending toLowerCase colIndex type rows
  else Descending toLowerCase colIndex type rows

/-- The comparator of `sortBy` on rows that are given a blank cell where they have none:
it never throws and agrees with `compareRows` on rows that have the cell. -/
def compareOrBlank (colIndex : Option Int) (type : Option String) (dir : String)
    (a b : Row) : Int :=
  compareCells toLowerCase type dir (cellOrBlank colIndex a) (cellOrBlank colIndex b)

/-- The rows in the order a completing sort leaves them in. -/
def sortedRows (colIndex : Option Int) (type : Option String) (dir : String)
    (rows : List Row) : List Row :=
  rows.insertionSort (fun a b => compareOrBlank toLowerCase colIndex type dir a b ≤ 0)

end SorterPredicates

/-- The table as `init` captures it, before the sort is restored from the URL. -/
def initialTable (page : Page) : Table :=
  { headers := page.headers, tbody := page.tbody, rows := participating page.tbody,
    url := page.url }

/-! ## Concrete inputs: the table -/

/-- A row of one cell with the given `data-value` and text. -/
def uniformRow (id : Nat) (empty : Bool) (value text : String) : Row :=
  { id := id, empty := empty, children := [⟨some value, text⟩] }

/-- A row with a name in column 0 and a group in column 1. -/
def playerRow (id : Nat) (name group : String) : Row :=
  { id := id, empty := false, children := [⟨none, name⟩, ⟨none, group⟩] }

/-- One numeric header, neither sorted, and three rows of values 10, 2, 30. -/
def numbersPage : Page :=
  { headers := [⟨some "0", some "number", false, false, none⟩]
    tbody := [uniformRow 0 false "10" "ten", uniformRow 1 false "2" "two",
      uniformRow 2 false "30" "thirty"]
    url := fun _ => none }

/-- A body in which a placeholder row stands between two participating rows. -/
def placeholderPage : Page :=
  { headers := [⟨some "0", some "number", false, false, none⟩]
    tbody := [uniformRow 0 false "10" "ten", uniformRow 1 true "" "No players",
      uniformRow 2 false "2" "two"]
    url := fun _ => none }

/-- Two text headers (name, group) and two players of the same group. -/
def playersPage : Page :=
  { headers := [⟨some "0", none, false, false, none⟩, ⟨some "1", none, false, false, none⟩]
    tbody := [playerRow 0 "Bob" "x", playerRow 1 "ann" " X "]
    url := fun _ => none }

/-- The players page loaded with `?sort=1&dir=desc`. -/
def playersPageFromUrl : Page :=
  { playersPage with
    url := fun k => if k = "sort" then some "1" else if k = "dir" then some "desc" else none }

/-- Two text headers and two rows, the second of which has no cell in column 1, loaded
with `?sort=0&dir=asc`. -/
def shortRowPage : Page :=
  { headers := [⟨some "0", none, false, false, none⟩, ⟨some "1", none, false, false, none⟩]
    tbody := [playerRow 0 "Bob" "x",
      { id := 1, empty := false, children := [⟨none, "ann"⟩] }]
    url := fun k => if k = "sort" then some "0" else if k = "dir" then some "asc" else none }

/-- The page with the short row loaded with `?sort=1&dir=asc`. -/
def shortRowPageFromUrl : Page :=
  { shortRowPage with
    url := fun k => if k = "sort" then some "1" else if k = "dir" then some "asc" else none }

/-- The players page with the second header's `data-index` written `01`, loaded with
`?sort=01&dir=desc`. -/
def paddedIndexPage : Page :=
  { headers := [⟨some "0", none, false, false, none⟩, ⟨some "01", none, false, false, none⟩]
    tbody := [playerRow 0 "Bob" "x", playerRow 1 "ann" "y"]
    url := fun k => if k = "sort" then some "01" else if k = "dir" then some "desc" else none }

/-- The page with the padded `data-index` loaded with `?sort=1&dir=desc`. -/
def paddedIndexPageCanonicalUrl : Page :=
  { paddedIndexPage with
    url := fun k => if k = "sort" then some "1" else if k = "dir" then some "desc" else none }

/-! ## Theorems: bracket.js -/

theorem append_ne_empty (a b : String) (h : a ≠ "") : a ++ b ≠ "" := by
  intro e
  apply h
  have hl := congrArg String.length e
  simp only [String.length_append] at hl
  have ha : a.length = 0 := by
    have : ("" : String).length = 0 := rfl
    omega
  cases a with
  | mk d =>
    cases d with
    | nil => rfl
    | cons c cs => simp [String.length] at ha

theorem setInnerHTML_append (a b : String) (h : a ≠ "") :
    setInnerHTML (a ++ b) = [Node.html (a ++ b)] := by
  simp [setInnerHTML, append_ne_empty a b h]

theorem setTextContent_append (a b : String) (h : a ≠ "") :
    setTextContent (a ++ b) = [Node.text (a ++ b)] := by
  simp [setTextContent, append_ne_empty a b h]

theorem truthy_eq_true_iff (v : JField) :
    v.truthy = true ↔ ∃ s, v = .str s ∧ s ≠ "" := by
  cases v <;> simp [JField.truthy]

/-- C9: `createMatchCard(m)` is a card whose first child holds two slots. The first slot
shows `player1`, followed by the sub-slot "vs" exactly when `player2` is absent (falsy); the
second slot shows "BYE" when `player2` is absent and `player2`'s name when it is present. The
card has the class `pending` if and only if `winner_name` is absent (falsy), and it has a
winner line, of text "Winner is " followed by `winner_name`, if and only if `winner_name`
is present; it has no other children. -/
theorem createMatchCard_spec (m : Match) :
    ∃ classList p1 p2 winLines,
      createMatchCard m =
        Node.div classList
          (Node.div ["match-players"] [Node.div [] p1, Node.div [] p2] :: winLines)
      ∧ ("match-card" ∈ classList ∧ ("pending" ∈ classList ↔ m.winner_name.truthy = false))
      ∧ (m.player2.truthy = false →
          p1 = [Node.html ("<div class=\"player-name\">" ++ m.player1 ++ "</div>"
                  ++ "<div class=\"player-sub\">vs</div>")]
          ∧ p2 = [Node.html "<div class=\"player-sub\">BYE</div>"])
      ∧ (∀ name, m.player2 = .str name → name ≠ "" →
          p1 = [Node.html ("<div class=\"player-name\">" ++ m.player1 ++ "</div>")]
          ∧ p2 = [Node.html ("<div class=\"player-sub\">" ++ name ++ "</div>")])
      ∧ (m.winner_name.truthy = false → winLines = [])
      ∧ (∀ name, m.winner_name = .str name → name ≠ "" →
          winLines = [Node.div ["winner-line"] [Node.text ("Winner is " ++ name)]]) := by
  refine ⟨_, _, _, _, rfl, ?_, ?_, ?_, ?_, ?_⟩
  · cases h : m.winner_name.truthy <;> simp
  · intro h
    constructor
    · rw [h]
      simp only [Bool.false_eq_true, if_false]
      rw [String.append_assoc, String.append_assoc]
      exact setInnerHTML_append _ _ (by decide)
    · simp only [h, Bool.false_eq_true, if_false]
      rfl
  · intro name hn hne
    have ht : m.player2.truthy = true := (truthy_eq_true_iff _).mpr ⟨name, hn, hne⟩
    constructor
    · rw [ht]
      simp only [if_true, String.append_empty]
      rw [String.append_assoc]
      exact setInnerHTML_append _ _ (by decide)
    · rw [ht]
      simp only [if_true, hn, JField.toJsString]
      rw [String.append_assoc]
      exact setInnerHTML_append _ _ (by decide)
  · intro h
    simp [h]
  · intro name hn hne
    have ht : m.winner_name.truthy = true := (truthy_eq_true_iff _).mpr ⟨name, hn, hne⟩
    rw [ht]
    simp only [if_true, hn, JField.toJsString]
    rw [setTextContent_append _ _ (by decide)]
    rfl

theorem poll_ok_of_eq (st : PollState) (data : Response)
    (h : some (jsonStringify data.stagesOrEmpty) = st.lastJson) :
    poll st (.ok data) = st := by
  simp [poll, h]

theorem poll_ok_of_ne (st : PollState) (data : Response)
    (h : some (jsonStringify data.stagesOrEmpty) ≠ st.lastJson) :
    poll st (.ok data) =
      { lastJson := if (renderHtmlBracket st.container data.stagesOrEmpty).2
          then some (jsonStringify data.stagesOrEmpty) else st.lastJson
        container := (renderHtmlBracket st.container data.stagesOrEmpty).1
        renderCalls := st.renderCalls + 1 } := by
  simp only [poll, h, ne_eq, not_false_eq_true, if_true]
  rcases hr : renderHtmlBracket st.container data.stagesOrEmpty with ⟨c, b⟩
  cases b <;> simp

/-- C1: in every state of the poll loop (so after every sequence of fetched responses), a
tick with a successfully fetched response calls `renderHtmlBracket` (once) exactly when
`JSON.stringify(data.stages || [])` differs from `lastJson`; when the two are equal the
state (container, `lastJson`, render count) is unchanged. The first successful tick after
`startBracket` always renders, also for an empty stage list. The tick depends on the
response only through its `stages`. -/
theorem poll_renders_iff_changed (st : PollState) (data data' : Response)
    (container : List Node) :
    ((poll st (.ok data)).renderCalls = st.renderCalls + 1 ↔
        some (jsonStringify data.stagesOrEmpty) ≠ st.lastJson)
    ∧ ((poll st (.ok data)).renderCalls = st.renderCalls ↔
        some (jsonStringify data.stagesOrEmpty) = st.lastJson)
    ∧ (some (jsonStringify data.stagesOrEmpty) = st.lastJson → poll st (.ok data) = st)
    ∧ (poll (startBracket container) (.ok data)).renderCalls = 1
    ∧ (poll (startBracket container) (.ok ⟨none, data.others⟩)).renderCalls = 1
    ∧ (data.stages = data'.stages → poll st (.ok data) = poll st (.ok data')) := by
  refine ⟨?_, ?_, poll_ok_of_eq st data, ?_, ?_, ?_⟩
  · by_cases h : some (jsonStringify data.stagesOrEmpty) = st.lastJson
    · simp [poll_ok_of_eq st data h, h]
    · simp [poll_ok_of_ne st data h, h]
  · by_cases h : some (jsonStringify data.stagesOrEmpty) = st.lastJson
    · simp [poll_ok_of_eq st data h, h]
    · simp [poll_ok_of_ne st data h, h]
  · rw [poll_ok_of_ne _ _ (by simp [startBracket])]
    simp [startBracket]
  · rw [poll_ok_of_ne _ _ (by simp [startBracket])]
    simp [startBracket]
  · intro h
    have hs : data.stagesOrEmpty = data'.stagesOrEmpty := by
      simp [Response.stagesOrEmpty, h]
    simp only [poll, hs]

/-- Witness of C1 on a concrete run: the same document fetched twice renders once, and a
different document renders again. -/
theorem poll_renders_iff_changed_witness :
    (pollAll (startBracket []) [.ok ⟨some finalStage, []⟩]).renderCalls = 1
    ∧ (pollAll (startBracket [])
        [.ok ⟨some finalStage, []⟩, .ok ⟨some finalStage, [("t", "1")]⟩]).renderCalls = 1
    ∧ (pollAll (startBracket [])
        [.ok ⟨some finalStage, []⟩, .ok ⟨some [], []⟩]).renderCalls = 2
    ∧ ((poll (startBracket []) (.ok ⟨some finalStage, []⟩)).renderCalls = 0 + 1 ↔
        some (jsonStringify finalStage) ≠ none) :=
  ⟨by decide, by decide, by decide,
    (poll_renders_iff_changed (startBracket []) ⟨some finalStage, []⟩ ⟨none, []⟩ []).1⟩

theorem bracketColumns_of_wellFormed (stages : List Stage)
    (h : stages.all (fun s => s.matchList.isSome) = true) :
    ∃ cols, bracketColumns stages = some cols := by
  induction stages with
  | nil => exact ⟨[], rfl⟩
  | cons s rest ih =>
    simp only [List.all_cons, Bool.and_eq_true] at h
    obtain ⟨cols, hc⟩ := ih h.2
    obtain ⟨ms, hms⟩ := Option.isSome_iff_exists.mp h.1
    refine ⟨Node.div ["bracket-column"]
      ([Node.div ["bracket-header"] (setTextContent s.label)] ++ ms.map createMatchCard)
        :: cols, ?_⟩
    simp [bracketColumns, bracketColumn, hms, hc]

theorem renderHtmlBracket_completes (c : List Node) (stages : List Stage)
    (h : stages.all (fun s => s.matchList.isSome) = true) :
    (renderHtmlBracket c stages).2 = true := by
  unfold renderHtmlBracket
  obtain ⟨cols, hc⟩ := bracketColumns_of_wellFormed stages h
  split
  · rfl
  · simp [hc]

theorem renderHtmlBracket_container_irrelevant (c c' : List Node) (stages : List Stage) :
    renderHtmlBracket c stages = renderHtmlBracket c' stages := by
  simp [renderHtmlBracket, clearContainer]

theorem renderHtmlBracket_ne_nil (c : List Node) (stages : List Stage) :
    renderHtmlBracket c stages ≠ ([], true) := by
  unfold renderHtmlBracket
  split
  · simp [setInnerHTML]
  · split <;> simp

theorem inSync_poll (st : PollState) (f : Fetched) (hs : InSync st)
    (hf : f.wellFormed = true) : InSync (poll st f) := by
  cases f with
  | failed => exact hs
  | ok data =>
    by_cases h : some (jsonStringify data.stagesOrEmpty) = st.lastJson
    · rw [poll_ok_of_eq st data h]; exact hs
    · rw [poll_ok_of_ne st data h]
      have hc := renderHtmlBracket_completes st.container data.stagesOrEmpty hf
      intro j hj
      simp only [hc, if_true, Option.some.injEq] at hj
      refine ⟨data.stagesOrEmpty, hj, fun c => ?_⟩
      rw [renderHtmlBracket_container_irrelevant c st.container]
      exact Prod.ext rfl hc

theorem inSync_foldl (ticks : List Fetched) :
    ∀ st, InSync st → (∀ f ∈ ticks, f.wellFormed = true) → InSync (ticks.foldl poll st) := by
  induction ticks with
  | nil => intro st hs _; exact hs
  | cons f rest ih =>
    intro st hs hf
    exact ih _ (inSync_poll st f hs (hf f (List.mem_cons_self _ _)))
      (fun g hg => hf g (List.mem_cons_of_mem _ hg))

/-- C10, amended: as long as every fetched response was well formed (each stage has its
`matches` array, so that no render throws), after every poll tick of `startBracket`,
whether the fetch succeeded or failed, if `lastJson` is non-null then the container's
content is exactly what `renderHtmlBracket` produces for a stage list whose serialization
is `lastJson`. -/
theorem poll_keeps_display_in_sync (container : List Node) (ticks : List Fetched)
    (h : ∀ f ∈ ticks, f.wellFormed = true) :
    InSync (pollAll (startBracket container) ticks) :=
  inSync_foldl ticks _ (fun j hj => by simp [startBracket] at hj) h

/-- Witness of the amended C10 on a run with a document, a failed fetch and an empty
document. -/
theorem poll_keeps_display_in_sync_witness :
    (∀ f ∈ ticksWellFormed, f.wellFormed = true)
    ∧ InSync (pollAll (startBracket []) ticksWellFormed) :=
  ⟨by decide, poll_keeps_display_in_sync [] ticksWellFormed (by decide)⟩

/-- C10 as stated fails: after a well-formed document and then a document whose stage has
no `matches`, the second render throws after clearing the container; `lastJson` still is
the serialization of the first document, the container is empty, and no completed render
of any stage list leaves an empty container. -/
theorem poll_out_of_sync_after_throw :
    (pollAll (startBracket []) ticksWithThrow).lastJson = some (jsonStringify finalStage)
    ∧ (pollAll (startBracket []) ticksWithThrow).container = []
    ∧ (renderHtmlBracket [] finalStage).1 ≠ []
    ∧ ¬ InSync (pollAll (startBracket []) ticksWithThrow) := by
  have hl : (pollAll (startBracket []) ticksWithThrow).lastJson
      = some (jsonStringify finalStage) := by decide
  have hc : (pollAll (startBracket []) ticksWithThrow).container = [] := rfl
  refine ⟨hl, hc, ?_, ?_⟩
  · simp [renderHtmlBracket, finalStage, bracketColumns, bracketColumn, clearContainer,
      setInnerHTML]
  · intro hs
    obtain ⟨stages, _, hr⟩ := hs _ hl
    have := hr []
    rw [hc] at this
    exact renderHtmlBracket_ne_nil [] stages this


/-! ## Lemmas: players-table.js -/

theorem jsNumber_sub_nonpos_iff (a b : JsNumber) : a.sub b ≤ 0 ↔ a.le b := by
  cases a <;> cases b <;> simp [JsNumber.sub, JsNumber.le]

theorem jsNumber_le_total (a b : JsNumber) : a.le b ∨ b.le a := by
  cases a <;> cases b <;> simp [JsNumber.le]
  exact le_total _ _

theorem jsNumber_le_trans (a b c : JsNumber) (h₁ : a.le b) (h₂ : b.le c) : a.le c := by
  cases a <;> cases b <;> cases c <;> simp_all [JsNumber.le]
  exact le_trans h₁ h₂

theorem compareCells_nonpos_iff (toLowerCase : String → String) (type : Option String)
    (dir : String) (a b : Cell) :
    compareCells toLowerCase type dir a b ≤ 0 ↔
      (if dir = "asc" then cellLe toLowerCase type a b else cellLe toLowerCase type b a) := by
  unfold compareCells cellLe
  by_cases ht : type = some "number"
  · by_cases hd : dir = "asc"
    · simp only [ht, hd, if_true]
      exact jsNumber_sub_nonpos_iff _ _
    · simp only [ht, hd, if_true, if_false]
      exact jsNumber_sub_nonpos_iff _ _
  · simp only [ht, if_false]
    rcases lt_trichotomy (textKey toLowerCase a) (textKey toLowerCase b) with h | h | h
    · by_cases hd : dir = "asc"
      · simp [h, hd, le_of_lt h]
      · simp [h, hd, not_le.mpr h]
    · simp [h]
    · have h' : ¬ textKey toLowerCase a < textKey toLowerCase b := not_lt.mpr (le_of_lt h)
      by_cases hd : dir = "asc"
      · simp [h, h', hd, not_le.mpr h]
      · simp [h, h', hd, le_of_lt h]

theorem cellLe_total (toLowerCase : String → String) (type : Option String) (a b : Cell) :
    cellLe toLowerCase type a b ∨ cellLe toLowerCase type b a := by
  unfold cellLe
  split
  · exact jsNumber_le_total _ _
  · exact le_total _ _

theorem cellLe_trans (toLowerCase : String → String) (type : Option String) (a b d : Cell)
    (h₁ : cellLe toLowerCase type a b) (h₂ : cellLe toLowerCase type b d) :
    cellLe toLowerCase type a d := by
  unfold cellLe at *
  split
  · rename_i ht
    simp only [ht, if_true] at h₁ h₂
    exact jsNumber_le_trans _ _ _ h₁ h₂
  · rename_i ht
    simp only [ht, if_false] at h₁ h₂
    exact le_trans h₁ h₂

theorem orderedInsert_of_total (cmp : Row → Row → Option Int) (f : Row → Row → Int)
    (a : Row) :
    ∀ l : List Row, (∀ b ∈ l, cmp a b = some (f a b)) →
      orderedInsert cmp a l = some (l.orderedInsert (fun x y => f x y ≤ 0) a) := by
  intro l
  induction l with
  | nil => intro _; rfl
  | cons b l ih =>
    intro h
    have hb := h b (List.mem_cons_self _ _)
    have hl := ih (fun x hx => h x (List.mem_cons_of_mem _ hx))
    by_cases hv : f a b ≤ 0
    · simp [orderedInsert, hb, hv]
    · simp [orderedInsert, hb, hv, hl]

theorem arraySort_of_total (cmp : Row → Row → Option Int) (f : Row → Row → Int) :
    ∀ l : List Row, (∀ a ∈ l, ∀ b ∈ l, cmp a b = some (f a b)) →
      arraySort cmp l = some (l.insertionSort (fun x y => f x y ≤ 0)) := by
  intro l
  induction l with
  | nil => intro _; rfl
  | cons a l ih =>
    intro h
    have hl := ih (fun x hx y hy =>
      h x (List.mem_cons_of_mem _ hx) y (List.mem_cons_of_mem _ hy))
    simp only [arraySort, hl, List.insertionSort]
    apply orderedInsert_of_total
    intro b hb
    have hb' : b ∈ l := (List.perm_insertionSort _ l).mem_iff.mp hb
    exact h a (List.mem_cons_self _ _) b (List.mem_cons_of_mem _ hb')

theorem orderedInsert_perm (cmp : Row → Row → Option Int) (a : Row) :
    ∀ (l l' : List Row), orderedInsert cmp a l = some l' → l'.Perm (a :: l) := by
  intro l
  induction l with
  | nil =>
    intro l' h
    simp only [orderedInsert, Option.some.injEq] at h
    rw [← h]
  | cons b l ih =>
    intro l' h
    unfold orderedInsert at h
    split at h
    · exact absurd h (by simp)
    · split at h
      · simp only [Option.some.injEq] at h
        rw [← h]
      · split at h
        · exact absurd h (by simp)
        · rename_i l'' hl''
          simp only [Option.some.injEq] at h
          rw [← h]
          exact ((ih l'' hl'').cons b).trans (List.Perm.swap a b l)

theorem arraySort_perm (cmp : Row → Row → Option Int) :
    ∀ (l s : List Row), arraySort cmp l = some s → s.Perm l := by
  intro l
  induction l with
  | nil =>
    intro s h
    simp only [arraySort, Option.some.injEq] at h
    rw [← h]
  | cons a l ih =>
    intro s h
    unfold arraySort at h
    split at h
    · exact absurd h (by simp)
    · rename_i sorted hs
      exact (orderedInsert_perm cmp a sorted s h).trans ((ih sorted hs).cons a)

theorem childAt_cellOrBlank (colIndex : Option Int) (r : Row) (cell : Cell)
    (h : childAt r colIndex = some cell) : cellOrBlank colIndex r = cell := by
  simp [cellOrBlank, h]

theorem compareRows_of_hasColumn (toLowerCase : String → String) (colIndex : Option Int)
    (type : Option String) (dir : String) (rows : List Row) (hcol : HasColumn colIndex rows)
    (a b : Row) (ha : a ∈ rows) (hb : b ∈ rows) :
    compareRows toLowerCase colIndex type dir a b
      = some (compareOrBlank toLowerCase colIndex type dir a b) := by
  obtain ⟨ca, hca⟩ := Option.isSome_iff_exists.mp (hcol a ha)
  obtain ⟨cb, hcb⟩ := Option.isSome_iff_exists.mp (hcol b hb)
  simp [compareRows, compareOrBlank, cellOrBlank, hca, hcb]

theorem arraySort_of_hasColumn (toLowerCase : String → String) (colIndex : Option Int)
    (type : Option String) (dir : String) (rows : List Row) (hcol : HasColumn colIndex rows) :
    arraySort (compareRows toLowerCase colIndex type dir) rows
      = some (sortedRows toLowerCase colIndex type dir rows) :=
  arraySort_of_total _ _ rows
    (fun a ha b hb => compareRows_of_hasColumn toLowerCase colIndex type dir rows hcol a b ha hb)

theorem sortedRows_perm (toLowerCase : String → String) (colIndex : Option Int)
    (type : Option String) (dir : String) (rows : List Row) :
    (sortedRows toLowerCase colIndex type dir rows).Perm rows :=
  List.perm_insertionSort _ rows

theorem keyLe_of_cellLe (toLowerCase : String → String) (colIndex : Option Int)
    (type : Option String) (rows : List Row) (hcol : HasColumn colIndex rows) (a b : Row)
    (ha : a ∈ rows) (hb : b ∈ rows)
    (h : cellLe toLowerCase type (cellOrBlank colIndex a) (cellOrBlank colIndex b)) :
    keyLe toLowerCase colIndex type a b := by
  obtain ⟨ca, hca⟩ := Option.isSome_iff_exists.mp (hcol a ha)
  obtain ⟨cb, hcb⟩ := Option.isSome_iff_exists.mp (hcol b hb)
  simp only [cellOrBlank, hca, hcb, Option.getD_some] at h
  simp only [keyLe, hca, hcb]
  exact h

theorem sortedRows_inOrder (toLowerCase : String → String) (colIndex : Option Int)
    (type : Option String) (dir : String) (rows : List Row) (hcol : HasColumn colIndex rows) :
    InOrder toLowerCase colIndex type dir (sortedRows toLowerCase colIndex type dir rows) := by
  have hmem : ∀ r, r ∈ sortedRows toLowerCase colIndex type dir rows → r ∈ rows :=
    fun r hr => (sortedRows_perm toLowerCase colIndex type dir rows).mem_iff.mp hr
  unfold InOrder Ascending Descending
  by_cases hd : dir = "asc"
  · simp only [hd, if_true]
    haveI : IsTotal Row (fun a b => compareOrBlank toLowerCase colIndex type "asc" a b ≤ 0) :=
      ⟨fun a b => by
        simp only [compareOrBlank, compareCells_nonpos_iff, if_true]
        exact cellLe_total toLowerCase type _ _⟩
    haveI : IsTrans Row (fun a b => compareOrBlank toLowerCase colIndex type "asc" a b ≤ 0) :=
      ⟨fun a b d h₁ h₂ => by
        simp only [compareOrBlank, compareCells_nonpos_iff, if_true] at h₁ h₂ ⊢
        exact cellLe_trans toLowerCase type _ _ _ h₁ h₂⟩
    have hs := List.sorted_insertionSort
      (fun a b => compareOrBlank toLowerCase colIndex type "asc" a b ≤ 0) rows
    have hmem' : ∀ r, r ∈ sortedRows toLowerCase colIndex type "asc" rows → r ∈ rows := by
      rw [← hd]; exact hmem
    refine List.Pairwise.imp_of_mem (fun {a b} ha hb hab => ?_) hs
    simp only [compareOrBlank, compareCells_nonpos_iff, if_true] at hab
    exact keyLe_of_cellLe toLowerCase colIndex type rows hcol a b (hmem' a ha) (hmem' b hb) hab
  · simp only [hd, if_false]
    haveI : IsTotal Row (fun a b => compareOrBlank toLowerCase colIndex type dir a b ≤ 0) :=
      ⟨fun a b => by
        simp only [compareOrBlank, compareCells_nonpos_iff, hd, if_false]
        exact cellLe_total toLowerCase type _ _⟩
    haveI : IsTrans Row (fun a b => compareOrBlank toLowerCase colIndex type dir a b ≤ 0) :=
      ⟨fun a b d h₁ h₂ => by
        simp only [compareOrBlank, compareCells_nonpos_iff, hd, if_false] at h₁ h₂ ⊢
        exact cellLe_trans toLowerCase type _ _ _ h₂ h₁⟩
    have hs := List.sorted_insertionSort
      (fun a b => compareOrBlank toLowerCase colIndex type dir a b ≤ 0) rows
    refine List.Pairwise.imp_of_mem (fun {a b} ha hb hab => ?_) hs
    simp only [compareOrBlank, compareCells_nonpos_iff, hd, if_false] at hab
    exact keyLe_of_cellLe toLowerCase colIndex type rows hcol b a (hmem b hb) (hmem a ha) hab

theorem sortedRows_stable (toLowerCase : String → String) (colIndex : Option Int)
    (type : Option String) (dir : String) (rows : List Row) (a b : Row)
    (hab : compareOrBlank toLowerCase colIndex type dir a b ≤ 0)
    (h : List.Sublist [a, b] rows) :
    List.Sublist [a, b] (sortedRows toLowerCase colIndex type dir rows) :=
  List.pair_sublist_insertionSort hab h

theorem foldl_appendChild (sorted : List Row) :
    ∀ tbody : List Row, (sorted.map Row.id).Nodup →
      sorted.foldl appendChild tbody
        = tbody.filter (fun x => decide (x.id ∉ sorted.map Row.id)) ++ sorted := by
  induction sorted with
  | nil => intro tbody _; simp
  | cons r rs ih =>
    intro tbody hn
    rw [List.map_cons, List.nodup_cons] at hn
    rw [List.foldl_cons, ih _ hn.2]
    unfold appendChild
    rw [List.filter_append, List.filter_filter]
    have h1 : [r].filter (fun x => decide (x.id ∉ rs.map Row.id)) = [r] := by
      have hd : decide (r.id ∉ rs.map Row.id) = true := decide_eq_true hn.1
      simp only [List.filter, hd]
    rw [h1, List.append_assoc]
    congr 1
    apply List.filter_congr
    intro x _
    simp only [List.map_cons, List.mem_cons, not_or]
    by_cases hx : x.id = r.id <;> simp [hx]

theorem mem_rows_iff_of_consistent (t : Table) (hc : Consistent t) (x : Row)
    (hx : x ∈ t.tbody) : x.id ∈ t.rows.map Row.id ↔ x.empty = false := by
  obtain ⟨hn, hp⟩ := hc
  constructor
  · intro h
    obtain ⟨y, hy, hyx⟩ := List.mem_map.mp h
    have hy' : y ∈ participating t.tbody := hp.mem_iff.mp hy
    unfold participating at hy'
    rw [List.mem_filter] at hy'
    have hxy : y = x := List.inj_on_of_nodup_map hn hy'.1 hx hyx
    rw [← hxy]
    simpa using hy'.2
  · intro h
    have hx' : x ∈ participating t.tbody := by
      unfold participating
      rw [List.mem_filter]
      exact ⟨hx, by simp [h]⟩
    exact List.mem_map.mpr ⟨x, hp.mem_iff.mpr hx', rfl⟩

theorem rows_nodup_of_consistent (t : Table) (hc : Consistent t) :
    (t.rows.map Row.id).Nodup := by
  obtain ⟨hn, hp⟩ := hc
  have h1 : ((participating t.tbody).map Row.id).Nodup :=
    List.Nodup.sublist (List.Sublist.map _ (List.filter_sublist _)) hn
  exact ((hp.map Row.id).nodup_iff).mpr h1

theorem rows_not_empty_of_consistent (t : Table) (hc : Consistent t) (r : Row)
    (hr : r ∈ t.rows) : r.empty = false := by
  have h := hc.2.mem_iff.mp hr
  unfold participating at h
  rw [List.mem_filter] at h
  simpa using h.2

theorem participating_append_sorted (tbody sorted : List Row)
    (h : ∀ r ∈ sorted, r.empty = false) :
    participating (placeholders tbody ++ sorted) = sorted := by
  unfold participating placeholders
  rw [List.filter_append, List.filter_filter]
  have h1 : tbody.filter (fun a => (!a.empty) && a.empty) = [] := by
    apply List.filter_eq_nil_iff.mpr
    intro a _
    cases a.empty <;> simp
  have h2 : sorted.filter (fun r => !r.empty) = sorted := by
    apply List.filter_eq_self.mpr
    intro a ha
    simp [h a ha]
  rw [h1, h2, List.nil_append]

theorem placeholders_append_sorted (tbody sorted : List Row)
    (h : ∀ r ∈ sorted, r.empty = false) :
    placeholders (placeholders tbody ++ sorted) = placeholders tbody := by
  unfold placeholders
  rw [List.filter_append, List.filter_filter]
  have h1 : tbody.filter (fun a => a.empty && a.empty) = tbody.filter (fun a => a.empty) := by
    apply List.filter_congr
    intro a _
    cases a.empty <;> rfl
  have h2 : sorted.filter (fun r => r.empty) = [] := by
    apply List.filter_eq_nil_iff.mpr
    intro a ha
    simp [h a ha]
  rw [h1, h2, List.append_nil]

theorem reattach_of_perm (t : Table) (hc : Consistent t) (sorted : List Row)
    (hperm : sorted.Perm t.rows) :
    sorted.foldl appendChild t.tbody = placeholders t.tbody ++ sorted := by
  have hn : (sorted.map Row.id).Nodup :=
    ((hperm.map Row.id).nodup_iff).mpr (rows_nodup_of_consistent t hc)
  rw [foldl_appendChild _ _ hn]
  congr 1
  unfold placeholders
  apply List.filter_congr
  intro x hx
  have hmem : x.id ∈ sorted.map Row.id ↔ x.id ∈ t.rows.map Row.id :=
    (hperm.map Row.id).mem_iff
  have := mem_rows_iff_of_consistent t hc x hx
  cases he : x.empty
  · simp [hmem, this.mpr he]
  · have hne : ¬ x.id ∈ t.rows.map Row.id := by
      intro h
      have := this.mp h
      simp [he] at this
    simp [hmem, hne]

theorem consistent_reattach (t : Table) (hc : Consistent t) (sorted : List Row)
    (hperm : sorted.Perm t.rows) (headers : List Header) (url : Url) :
    Consistent
      { headers := headers
        tbody := sorted.foldl appendChild t.tbody
        rows := t.rows
        url := url } := by
  have hne : ∀ r ∈ sorted, r.empty = false :=
    fun r hr => rows_not_empty_of_consistent t hc r (hperm.mem_iff.mp hr)
  have hbody := reattach_of_perm t hc sorted hperm
  constructor
  · show ((sorted.foldl appendChild t.tbody).map Row.id).Nodup
    rw [hbody]
    have h1 : (placeholders t.tbody ++ participating t.tbody).Perm t.tbody :=
      List.filter_append_perm _ _
    have h2 : (placeholders t.tbody ++ sorted).Perm t.tbody :=
      List.Perm.trans (List.Perm.append_left _ (hperm.trans hc.2)) h1
    exact ((h2.map Row.id).nodup_iff).mpr hc.1
  · show t.rows.Perm (participating (sorted.foldl appendChild t.tbody))
    rw [hbody, participating_append_sorted _ _ hne]
    exact hperm.symm

section SorterLemmas

variable (toLowerCase : String → String) (largeIntegerToString : Int → String)

theorem sortBy_of_some (t : Table) (colIndex : Option Int) (type : Option String) (th : Nat)
    (direction : Option String) (sorted : List Row)
    (h : arraySort (compareRows toLowerCase colIndex type
      (sortDirection t.headers th direction)) t.rows = some sorted) :
    sortBy toLowerCase largeIntegerToString t colIndex type th direction =
      ({ headers := modifyHeader
          (fun h =>
            { h with
              ariaSort := some
                (if sortDirection t.headers th direction = "asc" then "ascending"
                  else "descending") })
          th ((modifyHeader
            (fun h => if sortDirection t.headers th direction = "asc"
              then { h with sortedAsc := true } else { h with sortedDesc := true })
            th (t.headers.map
              (fun h => { h with sortedAsc := false, sortedDesc := false }))).map
            (fun h => { h with ariaSort := some "none" }))
         tbody := sorted.foldl appendChild t.tbody
         rows := t.rows
         url := setParam (setParam t.url "sort"
            (some (numberToString largeIntegerToString colIndex)))
            "dir" (some (sortDirection t.headers th direction)) }, true) := by
  simp only [sortBy, h]

theorem sortBy_of_none (t : Table) (colIndex : Option Int) (type : Option String) (th : Nat)
    (direction : Option String)
    (h : arraySort (compareRows toLowerCase colIndex type
      (sortDirection t.headers th direction)) t.rows = none) :
    sortBy toLowerCase largeIntegerToString t colIndex type th direction =
      ({ headers := modifyHeader
            (fun h => if sortDirection t.headers th direction = "asc"
              then { h with sortedAsc := true } else { h with sortedDesc := true })
            th (t.headers.map
              (fun h => { h with sortedAsc := false, sortedDesc := false }))
         tbody := t.tbody
         rows := t.rows
         url := t.url }, false) := by
  simp only [sortBy, h]

theorem sortBy_of_hasColumn (t : Table) (colIndex : Option Int) (type : Option String)
    (th : Nat) (direction : Option String) (hcol : HasColumn colIndex t.rows) :
    sortBy toLowerCase largeIntegerToString t colIndex type th direction =
      ({ headers := modifyHeader
          (fun h =>
            { h with
              ariaSort := some
                (if sortDirection t.headers th direction = "asc" then "ascending"
                  else "descending") })
          th ((modifyHeader
            (fun h => if sortDirection t.headers th direction = "asc"
              then { h with sortedAsc := true } else { h with sortedDesc := true })
            th (t.headers.map
              (fun h => { h with sortedAsc := false, sortedDesc := false }))).map
            (fun h => { h with ariaSort := some "none" }))
         tbody := (sortedRows toLowerCase colIndex type
            (sortDirection t.headers th direction) t.rows).foldl appendChild t.tbody
         rows := t.rows
         url := setParam (setParam t.url "sort"
            (some (numberToString largeIntegerToString colIndex)))
            "dir" (some (sortDirection t.headers th direction)) }, true) :=
  sortBy_of_some toLowerCase largeIntegerToString t colIndex type th direction _
    (arraySort_of_hasColumn toLowerCase colIndex type _ t.rows hcol)

theorem sortBy_rows (t : Table) (colIndex : Option Int) (type : Option String) (th : Nat)
    (direction : Option String) :
    (sortBy toLowerCase largeIntegerToString t colIndex type th direction).1.rows
      = t.rows := by
  rcases h : arraySort (compareRows toLowerCase colIndex type
      (sortDirection t.headers th direction)) t.rows with _ | sorted
  · rw [sortBy_of_none toLowerCase largeIntegerToString t colIndex type th direction h]
  · rw [sortBy_of_some toLowerCase largeIntegerToString t colIndex type th direction sorted h]

theorem sortBy_consistent (t : Table) (hc : Consistent t) (colIndex : Option Int)
    (type : Option String) (th : Nat) (direction : Option String) :
    Consistent (sortBy toLowerCase largeIntegerToString t colIndex type th direction).1 := by
  rcases h : arraySort (compareRows toLowerCase colIndex type
      (sortDirection t.headers th direction)) t.rows with _ | sorted
  · rw [sortBy_of_none toLowerCase largeIntegerToString t colIndex type th direction h]
    exact hc
  · rw [sortBy_of_some toLowerCase largeIntegerToString t colIndex type th direction sorted h]
    exact consistent_reattach t hc sorted (arraySort_perm _ _ _ h) _ _

theorem sortBy_completes (t : Table) (colIndex : Option Int) (type : Option String)
    (th : Nat) (direction : Option String) (hcol : HasColumn colIndex t.rows) :
    (sortBy toLowerCase largeIntegerToString t colIndex type th direction).2 = true := by
  rw [sortBy_of_hasColumn toLowerCase largeIntegerToString t colIndex type th direction hcol]

theorem sortBy_url_sort (t : Table) (colIndex : Option Int) (type : Option String)
    (th : Nat) (direction : Option String) (hcol : HasColumn colIndex t.rows) :
    getParam (sortBy toLowerCase largeIntegerToString t colIndex type th direction).1.url
      "sort" = some (numberToString largeIntegerToString colIndex) := by
  rw [sortBy_of_hasColumn toLowerCase largeIntegerToString t colIndex type th direction hcol]
  simp [getParam, setParam]

theorem sortBy_url_dir (t : Table) (colIndex : Option Int) (type : Option String)
    (th : Nat) (direction : Option String) (hcol : HasColumn colIndex t.rows) :
    getParam (sortBy toLowerCase largeIntegerToString t colIndex type th direction).1.url
      "dir" = some (sortDirection t.headers th direction) := by
  rw [sortBy_of_hasColumn toLowerCase largeIntegerToString t colIndex type th direction hcol]
  simp [getParam, setParam]

theorem sortBy_tbody (t : Table) (hc : Consistent t) (colIndex : Option Int)
    (type : Option String) (th : Nat) (direction : Option String)
    (hcol : HasColumn colIndex t.rows) :
    (sortBy toLowerCase largeIntegerToString t colIndex type th direction).1.tbody
      = placeholders t.tbody ++
        sortedRows toLowerCase colIndex type (sortDirection t.headers th direction)
          t.rows := by
  rw [sortBy_of_hasColumn toLowerCase largeIntegerToString t colIndex type th direction hcol]
  exact reattach_of_perm t hc _ (sortedRows_perm toLowerCase colIndex type _ t.rows)

theorem sortBy_participating (t : Table) (hc : Consistent t) (colIndex : Option Int)
    (type : Option String) (th : Nat) (direction : Option String)
    (hcol : HasColumn colIndex t.rows) :
    participating
        (sortBy toLowerCase largeIntegerToString t colIndex type th direction).1.tbody
      = sortedRows toLowerCase colIndex type (sortDirection t.headers th direction)
          t.rows := by
  rw [sortBy_tbody toLowerCase largeIntegerToString t hc colIndex type th direction hcol]
  apply participating_append_sorted
  intro r hr
  exact rows_not_empty_of_consistent t hc r ((sortedRows_perm _ _ _ _ _).mem_iff.mp hr)

theorem sortBy_placeholders (t : Table) (hc : Consistent t) (colIndex : Option Int)
    (type : Option String) (th : Nat) (direction : Option String)
    (hcol : HasColumn colIndex t.rows) :
    placeholders
        (sortBy toLowerCase largeIntegerToString t colIndex type th direction).1.tbody
      = placeholders t.tbody := by
  rw [sortBy_tbody toLowerCase largeIntegerToString t hc colIndex type th direction hcol]
  apply placeholders_append_sorted
  intro r hr
  exact rows_not_empty_of_consistent t hc r ((sortedRows_perm _ _ _ _ _).mem_iff.mp hr)

theorem sortBy_tbody_perm (t : Table) (hc : Consistent t) (colIndex : Option Int)
    (type : Option String) (th : Nat) (direction : Option String)
    (hcol : HasColumn colIndex t.rows) :
    (sortBy toLowerCase largeIntegerToString t colIndex type th direction).1.tbody.Perm
      t.tbody := by
  rw [sortBy_tbody toLowerCase largeIntegerToString t hc colIndex type th direction hcol]
  have h1 : (placeholders t.tbody ++ participating t.tbody).Perm t.tbody :=
    List.filter_append_perm _ _
  refine List.Perm.trans (List.Perm.append_left _ ?_) h1
  exact (sortedRows_perm _ _ _ _ _).trans hc.2

theorem sortBy_inOrder (t : Table) (hc : Consistent t) (colIndex : Option Int)
    (type : Option String) (th : Nat) (direction : Option String)
    (hcol : HasColumn colIndex t.rows) :
    InOrder toLowerCase colIndex type (sortDirection t.headers th direction)
      (participating
        (sortBy toLowerCase largeIntegerToString t colIndex type th direction).1.tbody) := by
  rw [sortBy_participating toLowerCase largeIntegerToString t hc colIndex type th direction hcol]
  exact sortedRows_inOrder toLowerCase colIndex type _ t.rows hcol

theorem sortBy_participating_perm (t : Table) (hc : Consistent t) (colIndex : Option Int)
    (type : Option String) (th : Nat) (direction : Option String)
    (hcol : HasColumn colIndex t.rows) :
    (participating
        (sortBy toLowerCase largeIntegerToString t colIndex type th direction).1.tbody).Perm
      (participating t.tbody) := by
  rw [sortBy_participating toLowerCase largeIntegerToString t hc colIndex type th direction hcol]
  exact (sortedRows_perm _ _ _ _ _).trans hc.2

theorem click_consistent (t : Table) (hc : Consistent t) (i : Nat) :
    Consistent (click toLowerCase largeIntegerToString t i) := by
  unfold click
  split
  · exact sortBy_consistent toLowerCase largeIntegerToString t hc _ _ _ _
  · exact hc

theorem click_rows (t : Table) (i : Nat) :
    (click toLowerCase largeIntegerToString t i).rows = t.rows := by
  unfold click
  split
  · exact sortBy_rows toLowerCase largeIntegerToString t _ _ _ _
  · rfl

theorem clicks_consistent (is : List Nat) :
    ∀ t : Table, Consistent t → Consistent (clicks toLowerCase largeIntegerToString t is) := by
  induction is with
  | nil => intro t hc; exact hc
  | cons i rest ih =>
    intro t hc
    exact ih _ (click_consistent toLowerCase largeIntegerToString t hc i)

theorem clicks_rows (is : List Nat) :
    ∀ t : Table, (clicks toLowerCase largeIntegerToString t is).rows = t.rows := by
  induction is with
  | nil => intro t; rfl
  | cons i rest ih =>
    intro t
    exact (ih _).trans (click_rows toLowerCase largeIntegerToString t i)

end SorterLemmas

theorem findHeader_some (k : String) :
    ∀ (hs : List Header) (i : Nat) (h : Header), findHeader k hs = some (i, h) →
      hs[i]? = some h ∧ h.index = some k := by
  intro hs
  induction hs with
  | nil => intro i h hf; simp [findHeader] at hf
  | cons a rest ih =>
    intro i h hf
    unfold findHeader at hf
    split at hf
    · rename_i hk
      simp only [Option.some.injEq, Prod.mk.injEq] at hf
      obtain ⟨hi, ha⟩ := hf
      subst hi; subst ha
      exact ⟨by simp, hk⟩
    · rcases hr : findHeader k rest with _ | ⟨j, h'⟩
      · simp [hr] at hf
      · simp only [hr, Option.map_some', Option.some.injEq, Prod.mk.injEq] at hf
        obtain ⟨hi, hh⟩ := hf
        subst hi; subst hh
        have := ih j h' hr
        exact ⟨by simpa using this.1, this.2⟩

theorem findHeader_none (k : String) :
    ∀ hs : List Header, findHeader k hs = none ↔ ∀ h ∈ hs, h.index ≠ some k := by
  intro hs
  induction hs with
  | nil => simp [findHeader]
  | cons a rest ih =>
    unfold findHeader
    by_cases hk : a.index = some k
    · simp [hk]
    · simp only [hk, if_false, Option.map_eq_none', ih, List.mem_cons, forall_eq_or_imp]
      exact ⟨fun h => ⟨hk, h⟩, fun h => h.2⟩

theorem getElem?_modifyHeader (f : Header → Header) :
    ∀ (hs : List Header) (n j : Nat),
      (modifyHeader f n hs)[j]? = if j = n then hs[j]?.map f else hs[j]? := by
  intro hs
  induction hs with
  | nil => intro n j; simp [modifyHeader]
  | cons a rest ih =>
    intro n j
    cases n with
    | zero =>
      cases j with
      | zero => simp [modifyHeader]
      | succ j => simp [modifyHeader]
    | succ n =>
      cases j with
      | zero => simp [modifyHeader]
      | succ j => simp [modifyHeader, ih]

theorem length_modifyHeader (f : Header → Header) :
    ∀ (hs : List Header) (n : Nat), (modifyHeader f n hs).length = hs.length := by
  intro hs
  induction hs with
  | nil => intro n; simp [modifyHeader]
  | cons a rest ih =>
    intro n
    cases n with
    | zero => simp [modifyHeader]
    | succ n => simp [modifyHeader, ih]

theorem countP_marked_aux (f1 g1 f2 g2 : Header → Header)
    (hg : ∀ h, (g2 (g1 h)).sortedAsc = false ∧ (g2 (g1 h)).sortedDesc = false)
    (hf : ∀ h, ((f2 (g2 (f1 (g1 h)))).sortedAsc || (f2 (g2 (f1 (g1 h)))).sortedDesc) = true) :
    ∀ (hs : List Header) (n : Nat), n < hs.length →
      (modifyHeader f2 n ((modifyHeader f1 n (hs.map g1)).map g2)).countP
        (fun h => h.sortedAsc || h.sortedDesc) = 1 := by
  intro hs
  induction hs with
  | nil => intro n hn; simp at hn
  | cons a rest ih =>
    intro n hn
    cases n with
    | zero =>
      simp only [List.map_cons, modifyHeader, List.countP_cons, hf, if_true]
      have : (List.map g2 (List.map g1 rest)).countP (fun h => h.sortedAsc || h.sortedDesc)
          = 0 := by
        rw [List.countP_eq_zero]
        intro x hx
        simp only [List.map_map, List.mem_map, Function.comp] at hx
        obtain ⟨y, _, rfl⟩ := hx
        simp [(hg y).1, (hg y).2]
      rw [this]
    | succ n =>
      simp only [List.map_cons, modifyHeader, List.countP_cons]
      rw [ih n (by simpa using hn)]
      simp [(hg a).1, (hg a).2]

section HeaderLemmas

variable (toLowerCase : String → String) (largeIntegerToString : Int → String)

theorem sortBy_headers_length (t : Table) (colIndex : Option Int) (type : Option String)
    (th : Nat) (direction : Option String) :
    (sortBy toLowerCase largeIntegerToString t colIndex type th direction).1.headers.length
      = t.headers.length := by
  rcases h : arraySort (compareRows toLowerCase colIndex type
      (sortDirection t.headers th direction)) t.rows with _ | sorted
  · rw [sortBy_of_none toLowerCase largeIntegerToString t colIndex type th direction h]
    simp [length_modifyHeader]
  · rw [sortBy_of_some toLowerCase largeIntegerToString t colIndex type th direction sorted h]
    simp [length_modifyHeader]

theorem sortBy_header_at (t : Table) (colIndex : Option Int) (type : Option String)
    (th : Nat) (direction : Option String) (h : Header) (hth : t.headers[th]? = some h)
    (hcol : HasColumn colIndex t.rows) :
    ∃ h', (sortBy toLowerCase largeIntegerToString t colIndex type th
        direction).1.headers[th]? = some h'
      ∧ h'.index = h.index ∧ h'.type = h.type
      ∧ h'.marks (sortDirection t.headers th direction) := by
  rw [sortBy_of_hasColumn toLowerCase largeIntegerToString t colIndex type th direction hcol]
  simp only [getElem?_modifyHeader, List.getElem?_map, hth, if_true, Option.map_some']
  refine ⟨_, rfl, ?_, ?_, ?_⟩
  · split <;> rfl
  · split <;> rfl
  · unfold Header.marks
    split <;> simp

theorem sortBy_header_other (t : Table) (colIndex : Option Int) (type : Option String)
    (th : Nat) (direction : Option String) (j : Nat) (h : Header)
    (hj : t.headers[j]? = some h) (hne : j ≠ th) (hcol : HasColumn colIndex t.rows) :
    ∃ h', (sortBy toLowerCase largeIntegerToString t colIndex type th
        direction).1.headers[j]? = some h'
      ∧ h'.index = h.index ∧ h'.type = h.type ∧ h'.unmarked := by
  rw [sortBy_of_hasColumn toLowerCase largeIntegerToString t colIndex type th direction hcol]
  simp only [getElem?_modifyHeader, List.getElem?_map, hj, hne, if_false, Option.map_some']
  exact ⟨_, rfl, rfl, rfl, rfl, rfl, rfl⟩

theorem sortBy_countP_marked (t : Table) (colIndex : Option Int) (type : Option String)
    (th : Nat) (direction : Option String) (hth : th < t.headers.length)
    (hcol : HasColumn colIndex t.rows) :
    (sortBy toLowerCase largeIntegerToString t colIndex type th direction).1.headers.countP
      (fun h => h.sortedAsc || h.sortedDesc) = 1 := by
  rw [sortBy_of_hasColumn toLowerCase largeIntegerToString t colIndex type th direction hcol]
  apply countP_marked_aux
  · intro h; exact ⟨rfl, rfl⟩
  · intro h
    dsimp only
    split <;> simp
  · exact hth

end HeaderLemmas

theorem consistent_initialTable (page : Page) (hn : (page.tbody.map Row.id).Nodup) :
    Consistent (initialTable page) :=
  ⟨hn, List.Perm.refl _⟩

section InitLemmas

variable (toLowerCase : String → String) (largeIntegerToString : Int → String)

theorem init_of_absent (page : Page) (h : getParam page.url "sort" = none) :
    init toLowerCase largeIntegerToString page = initialTable page := by
  simp only [init, h]
  rfl

theorem init_of_unmatched (page : Page) (k : String) (h : getParam page.url "sort" = some k)
    (hk : ∀ th ∈ page.headers, th.index ≠ some k) :
    init toLowerCase largeIntegerToString page = initialTable page := by
  have hf : findHeader k page.headers = none := (findHeader_none k _).mpr hk
  simp only [init, h, hf]
  split <;> rfl

theorem init_of_matched (page : Page) (k : String) (i : Nat) (target : Header)
    (h : getParam page.url "sort" = some k) (hne : k ≠ "")
    (hf : findHeader k page.headers = some (i, target)) :
    init toLowerCase largeIntegerToString page =
      (sortBy toLowerCase largeIntegerToString (initialTable page) (parseInt target.index)
        target.type i (some (orElse (getParam page.url "dir") "desc"))).1 := by
  simp only [init, h, hf, hne, if_false]
  rfl

theorem init_eq (page : Page) :
    init toLowerCase largeIntegerToString page = initialTable page ∨
      ∃ i target, page.headers[i]? = some target ∧
        init toLowerCase largeIntegerToString page =
          (sortBy toLowerCase largeIntegerToString (initialTable page)
            (parseInt target.index) target.type i
            (some (orElse (getParam page.url "dir") "desc"))).1 := by
  rcases h : getParam page.url "sort" with _ | k
  · exact Or.inl (init_of_absent toLowerCase largeIntegerToString page h)
  · by_cases hne : k = ""
    · left
      simp only [init, h, hne, if_true]
      rfl
    · rcases hf : findHeader k page.headers with _ | ⟨i, target⟩
      · exact Or.inl (init_of_unmatched toLowerCase largeIntegerToString page k h
          ((findHeader_none k _).mp hf))
      · exact Or.inr ⟨i, target, (findHeader_some k _ i target hf).1,
          init_of_matched toLowerCase largeIntegerToString page k i target h hne hf⟩

theorem init_consistent (page : Page) (hn : (page.tbody.map Row.id).Nodup) :
    Consistent (init toLowerCase largeIntegerToString page) := by
  rcases init_eq toLowerCase largeIntegerToString page with h | ⟨i, target, _, h⟩
  · rw [h]; exact consistent_initialTable page hn
  · rw [h]
    exact sortBy_consistent toLowerCase largeIntegerToString _
      (consistent_initialTable page hn) _ _ _ _

theorem init_rows (page : Page) :
    (init toLowerCase largeIntegerToString page).rows = participating page.tbody := by
  rcases init_eq toLowerCase largeIntegerToString page with h | ⟨i, target, _, h⟩
  · rw [h]; rfl
  · rw [h, sortBy_rows]; rfl

theorem click_eq (t : Table) (i : Nat) (th : Header) (hth : t.headers[i]? = some th) :
    click toLowerCase largeIntegerToString t i =
      (sortBy toLowerCase largeIntegerToString t (parseInt th.index)
        (some (orElse th.type "text")) i none).1 := by
  simp only [click, hth]

end InitLemmas

theorem sortDirection_click (headers : List Header) (i : Nat) (th : Header)
    (hth : headers[i]? = some th) :
    sortDirection headers i none = if th.sortedAsc = true then "desc" else "asc" := by
  simp [sortDirection, orElse, hth]

theorem sortDirection_explicit (headers : List Header) (i : Nat) (d : String)
    (hd : d ≠ "") : sortDirection headers i (some d) = d := by
  simp [sortDirection, orElse, hd]

theorem getElem?_filter_countP (p : Row → Bool) :
    ∀ (l : List Row) (i : Nat) (r : Row), l[i]? = some r → p r = true →
      (l.filter p)[(l.take i).countP p]? = some r := by
  intro l
  induction l with
  | nil => intro i r h; simp at h
  | cons a rest ih =>
    intro i r h hp
    cases i with
    | zero =>
      simp only [List.getElem?_cons_zero, Option.some.injEq] at h
      subst h
      simp [List.filter_cons, hp]
    | succ i =>
      simp only [List.getElem?_cons_succ] at h
      have := ih i r h hp
      by_cases ha : p a = true
      · simp [List.filter_cons, ha, List.countP_cons, this]
      · simp [List.filter_cons, ha, List.countP_cons, this]

theorem foldl_bisect (n : Nat) :
    ∀ (steps : List Nat) (k : Nat), (k = 0 ∨ 2 ^ k ≤ n) →
      (steps.foldl (fun k s => if 2 ^ (k + s) ≤ n then k + s else k) k = 0
        ∨ 2 ^ (steps.foldl (fun k s => if 2 ^ (k + s) ≤ n then k + s else k) k) ≤ n) := by
  intro steps
  induction steps with
  | nil => intro k h; exact h
  | cons s rest ih =>
    intro k h
    rw [List.foldl_cons]
    apply ih
    split
    · rename_i hs
      exact Or.inr hs
    · exact h

theorem log2Floor_lt (n a : Nat) (ha : 0 < a) (h : n < 2 ^ a) : log2Floor n < a := by
  rcases foldl_bisect n [2048, 1024, 512, 256, 128, 64, 32, 16, 8, 4, 2, 1] 0 (Or.inl rfl)
    with h0 | hle
  · unfold log2Floor
    rw [h0]
    exact ha
  · have hlt : 2 ^ log2Floor n < 2 ^ a := lt_of_le_of_lt hle h
    exact (Nat.pow_lt_pow_iff_right (by decide : 1 < 2)).mp hlt

theorem mul_two_pow_lt (n a b : Nat) (h : n < 2 ^ a) : n * 2 ^ b < 2 ^ (a + b) := by
  rw [pow_add]
  exact Nat.mul_lt_mul_of_pos_right h (Nat.two_pow_pos b)

theorem two_pow_lt_two_pow (a b : Nat) (h : a < b) : 2 ^ a < 2 ^ b :=
  Nat.pow_lt_pow_right (by decide) h

theorem two_pow_dvd_mul (n j b : Nat) (h : j ≤ b) : 2 ^ j ∣ n * 2 ^ b :=
  Dvd.dvd.mul_left (Nat.pow_dvd_pow 2 h) n

theorem roundHalfEven_of_dvd (x d : Nat) (hd : 0 < d) (h : d ∣ x) :
    roundHalfEven x d * d = x := by
  unfold roundHalfEven
  simp only [Nat.mod_eq_zero_of_dvd h, Nat.mul_zero, hd, if_true, Nat.div_mul_cancel h]

theorem roundToDouble_of_small (n u : Nat) (hu : u = 2 ^ 1074) (h : n < 2 ^ 53) :
    (if 2 ^ 2098 ≤ n * u / 1 then none
      else
        if roundHalfEven (n * u) (1 * 2 ^ (log2Floor (n * u / 1) - 52))
            * 2 ^ (log2Floor (n * u / 1) - 52) < 2 ^ 2098
        then some (roundHalfEven (n * u) (1 * 2 ^ (log2Floor (n * u / 1) - 52))
            * 2 ^ (log2Floor (n * u / 1) - 52))
        else none) = some (n * u) := by
  have hx : n * u < 2 ^ (53 + 1074) := by
    rw [hu]
    exact mul_two_pow_lt n 53 1074 h
  have hlt : n * u < 2 ^ 2098 :=
    lt_trans hx (two_pow_lt_two_pow (53 + 1074) 2098 (by decide))
  have hj : log2Floor (n * u) - 52 ≤ 1074 := by
    have := log2Floor_lt (n * u) (53 + 1074) (by decide) hx
    omega
  have hdvd : 2 ^ (log2Floor (n * u) - 52) ∣ n * u := by
    rw [hu] at hj ⊢
    exact two_pow_dvd_mul n _ 1074 hj
  have hr := roundHalfEven_of_dvd (n * u) _ (Nat.two_pow_pos _) hdvd
  rw [Nat.div_one, Nat.one_mul, hr, if_neg (Nat.not_le.mpr hlt), if_pos hlt]

theorem roundToDouble_integer (n : Nat) (h : n < 2 ^ 53) :
    roundToDouble n 1 = some (n * unitsPerOne) :=
  roundToDouble_of_small n unitsPerOne rfl h

theorem stripNonNumeric_digits (ds : List Char) (h : ds.all Char.isDigit = true) :
    stripNonNumeric ds = ds := by
  unfold stripNonNumeric
  apply List.filter_eq_self.mpr
  intro c hc
  have := List.all_eq_true.mp h c hc
  simp [this]

theorem unsignedDecimal_digits (ds : List Char) (hne : ds.isEmpty = false)
    (h : ds.all Char.isDigit = true) :
    unsignedDecimal ds = some (digitsValue ds, 0) := by
  have ht : ds.takeWhile Char.isDigit = ds :=
    List.takeWhile_eq_self_iff.mpr (fun c hc => List.all_eq_true.mp h c hc)
  have hd : ds.dropWhile Char.isDigit = [] :=
    List.dropWhile_eq_nil_iff.mpr (fun c hc => List.all_eq_true.mp h c hc)
  have hnil : ds ≠ [] := by
    intro e
    simp [e] at hne
  simp [unsignedDecimal, ht, hd, hnil]

theorem stringToNumber_digits (ds : List Char) (hne : ds.isEmpty = false)
    (h : ds.all Char.isDigit = true) :
    stringToNumber ds = some (decimalToNumber false (digitsValue ds) 0) := by
  cases ds with
  | nil => simp at hne
  | cons d rest =>
    have hd : d.isDigit = true := List.all_eq_true.mp h d (List.mem_cons_self _ _)
    have hminus : d ≠ '-' := by
      intro e
      rw [e] at hd
      exact absurd hd (by decide)
    unfold stringToNumber
    split
    · rename_i heq
      exact absurd heq (by simp)
    · rename_i rest' heq
      simp only [List.cons.injEq] at heq
      exact absurd heq.1 hminus
    · rw [unsignedDecimal_digits _ hne h]
      rfl

theorem stringToNumber_minus_digits (ds : List Char) (hne : ds.isEmpty = false)
    (h : ds.all Char.isDigit = true) :
    stringToNumber ('-' :: ds) = some (decimalToNumber true (digitsValue ds) 0) := by
  simp only [stringToNumber, unsignedDecimal_digits ds hne h, Option.map_some']

theorem decimalToNumber_nonneg_integer (n : Nat) (h : n < 2 ^ 53) :
    decimalToNumber false n 0 = .finite ((n : Int) * (unitsPerOne : Int)) := by
  unfold decimalToNumber
  rw [pow_zero, roundToDouble_integer n h]
  show JsNumber.finite ((n * unitsPerOne : Nat) : Int) = _
  rw [Nat.cast_mul]

theorem decimalToNumber_neg_integer (n : Nat) (h : n < 2 ^ 53) :
    decimalToNumber true n 0 = .finite (-(n : Int) * (unitsPerOne : Int)) := by
  unfold decimalToNumber
  rw [pow_zero, roundToDouble_integer n h]
  show JsNumber.finite (-((n * unitsPerOne : Nat) : Int)) = _
  rw [Nat.cast_mul, neg_mul]

theorem parseNumber_of_plainInteger (s : String) (h : isPlainInteger s = true)
    (hb : (integerValue s).natAbs < 2 ^ 53) :
    parseNumber (some s) = .finite (integerValue s * unitsPerOne) := by
  unfold isPlainInteger at h
  unfold integerValue at hb ⊢
  unfold parseNumber
  rw [Option.getD_some]
  split at h
  · rename_i ds heq
    simp only [Bool.and_eq_true, Bool.not_eq_true'] at h
    have hs : stripNonNumeric ('-' :: ds) = '-' :: ds := by
      have := stripNonNumeric_digits ds h.2
      unfold stripNonNumeric at this ⊢
      rw [List.filter_cons_of_pos (by decide), this]
    rw [heq] at hb ⊢
    simp only [Int.natAbs_neg, Int.natAbs_ofNat] at hb
    rw [hs, stringToNumber_minus_digits ds h.1 h.2, decimalToNumber_neg_integer _ hb]
  · rename_i ds heq
    simp only [Bool.and_eq_true, Bool.not_eq_true'] at h
    have hs : stripNonNumeric ('+' :: ds) = ds := by
      have := stripNonNumeric_digits ds h.2
      unfold stripNonNumeric at this ⊢
      rw [List.filter_cons_of_neg (by decide), this]
    rw [heq] at hb ⊢
    simp only [Int.natAbs_ofNat] at hb
    rw [hs, stringToNumber_digits ds h.1 h.2, decimalToNumber_nonneg_integer _ hb]
  · rename_i ds h1 h2
    simp only [Bool.and_eq_true, Bool.not_eq_true'] at h
    simp only [Int.natAbs_ofNat] at hb
    rw [stripNonNumeric_digits _ h.2, stringToNumber_digits _ h.1 h.2,
      decimalToNumber_nonneg_integer _ hb]

theorem hasColumn_of_hasIntegerValue (colIndex : Option Int) (rows : List Row)
    (h : ∀ r ∈ rows, hasIntegerValue colIndex r = true) : HasColumn colIndex rows := by
  intro r hr
  have := h r hr
  unfold hasIntegerValue at this
  split at this
  · rename_i cell hcell
    simp [hcell]
  · exact absurd this (by simp)

theorem keyLe_number (toLowerCase : String → String) (colIndex : Option Int) (a b : Row)
    (h : keyLe toLowerCase colIndex (some "number") a b) :
    ∃ aCell bCell, childAt a colIndex = some aCell ∧ childAt b colIndex = some bCell
      ∧ (parseNumber aCell.dataValue).le (parseNumber bCell.dataValue) := by
  unfold keyLe at h
  split at h
  · rename_i aCell bCell ha hb
    exact ⟨aCell, bCell, ha, hb, by simpa [cellLe] using h⟩
  · exact absurd h id

theorem keyLe_text (toLowerCase : String → String) (colIndex : Option Int)
    (type : Option String) (htype : type ≠ some "number") (a b : Row)
    (h : keyLe toLowerCase colIndex type a b) :
    ∃ aCell bCell, childAt a colIndex = some aCell ∧ childAt b colIndex = some bCell
      ∧ textKey toLowerCase aCell ≤ textKey toLowerCase bCell := by
  unfold keyLe at h
  split at h
  · rename_i aCell bCell ha hb
    exact ⟨aCell, bCell, ha, hb, by simpa [cellLe, htype] using h⟩
  · exact absurd h id

/-! ## Theorems: players-table.js -/

set_option exponentiation.threshold 5000

set_option maxRecDepth 4000

theorem parseNumber_rounds_to_double :
    parseNumber (some "9007199254740993") = parseNumber (some "9007199254740992")
    ∧ parseNumber (some "0.1") = .finite ((3602879701896397 * 2 ^ 1019 : Nat) : Int)
    ∧ parseNumber (some "-0") = .finite 0
    ∧ parseNumber (some "1-2") = .finite 0
    ∧ parseNumber none = .finite 0 := by
  refine ⟨by decide, by decide, by decide, by decide, by decide⟩

/-- C2: when every participating row has a cell at `colIndex` whose `data-value` is a plain
(optionally signed) decimal integer, `sortBy(colIndex, 'number', th, 'asc')` completes and
leaves the participating rows of the body a permutation of the rows that were there (the
whole body is a permutation of the old body), in non-decreasing order of
`parseNumber(data-value)` compared as numbers; with `'desc'` the order is non-increasing.
`parseNumber` reads a plain integer of magnitude below `2 ^ 53` as exactly that integer
(`unitsPerOne` units a unit of the integer).
For the values "10", "2", "30" the resulting order is 2, 10, 30. -/
theorem sortBy_number_orders_numerically (toLowerCase : String → String)
    (largeIntegerToString : Int → String) (t : Table) (colIndex : Option Int) (th : Nat)
    (hc : Consistent t) (hint : ∀ r ∈ t.rows, hasIntegerValue colIndex r = true) :
    ((sortBy toLowerCase largeIntegerToString t colIndex (some "number") th
        (some "asc")).2 = true
      ∧ (participating (sortBy toLowerCase largeIntegerToString t colIndex (some "number") th
          (some "asc")).1.tbody).Perm (participating t.tbody)
      ∧ (sortBy toLowerCase largeIntegerToString t colIndex (some "number") th
          (some "asc")).1.tbody.Perm t.tbody
      ∧ (participating (sortBy toLowerCase largeIntegerToString t colIndex (some "number") th
          (some "asc")).1.tbody).Pairwise
          (fun a b => ∃ aCell bCell,
            childAt a colIndex = some aCell ∧ childAt b colIndex = some bCell
            ∧ (parseNumber aCell.dataValue).le (parseNumber bCell.dataValue)))
    ∧ ((sortBy toLowerCase largeIntegerToString t colIndex (some "number") th
        (some "desc")).2 = true
      ∧ (participating (sortBy toLowerCase largeIntegerToString t colIndex (some "number") th
          (some "desc")).1.tbody).Perm (participating t.tbody)
      ∧ (sortBy toLowerCase largeIntegerToString t colIndex (some "number") th
          (some "desc")).1.tbody.Perm t.tbody
      ∧ (participating (sortBy toLowerCase largeIntegerToString t colIndex (some "number") th
          (some "desc")).1.tbody).Pairwise
          (fun a b => ∃ aCell bCell,
            childAt a colIndex = some aCell ∧ childAt b colIndex = some bCell
            ∧ (parseNumber bCell.dataValue).le (parseNumber aCell.dataValue)))
    ∧ (∀ s, isPlainInteger s = true → (integerValue s).natAbs < 2 ^ 53 →
        parseNumber (some s) = .finite (integerValue s * unitsPerOne))
    ∧ (participating
        (sortBy asciiLowerCase decimalDigits (init asciiLowerCase decimalDigits numbersPage)
          (some 0) (some "number") 0 (some "asc")).1.tbody).map
        (fun r => r.children.map Cell.dataValue)
        = [[some "2"], [some "10"], [some "30"]] := by
  have hcol := hasColumn_of_hasIntegerValue colIndex t.rows hint
  have hasc := sortBy_inOrder toLowerCase largeIntegerToString t hc colIndex (some "number")
    th (some "asc") hcol
  have hdesc := sortBy_inOrder toLowerCase largeIntegerToString t hc colIndex (some "number")
    th (some "desc") hcol
  have hda : sortDirection t.headers th (some "asc") = "asc" := rfl
  have hdd : sortDirection t.headers th (some "desc") = "desc" := rfl
  have hne : ("desc" : String) ≠ "asc" := by decide
  rw [hda] at hasc
  rw [hdd] at hdesc
  simp only [InOrder, if_true, Ascending] at hasc
  simp only [InOrder, hne, if_false, Descending] at hdesc
  refine ⟨⟨sortBy_completes toLowerCase largeIntegerToString t _ _ _ _ hcol,
      sortBy_participating_perm toLowerCase largeIntegerToString t hc _ _ _ _ hcol,
      sortBy_tbody_perm toLowerCase largeIntegerToString t hc _ _ _ _ hcol, ?_⟩,
    ⟨sortBy_completes toLowerCase largeIntegerToString t _ _ _ _ hcol,
      sortBy_participating_perm toLowerCase largeIntegerToString t hc _ _ _ _ hcol,
      sortBy_tbody_perm toLowerCase largeIntegerToString t hc _ _ _ _ hcol, ?_⟩,
    parseNumber_of_plainInteger, by decide⟩
  · exact List.Pairwise.imp (fun {a b} h => keyLe_number toLowerCase colIndex a b h) hasc
  · refine List.Pairwise.imp (fun {a b} h => ?_) hdesc
    obtain ⟨bCell, aCell, hb, ha, hle⟩ := keyLe_number toLowerCase colIndex b a h
    exact ⟨aCell, bCell, ha, hb, hle⟩

/-- Witness of C2 on the page with the values 10, 2, 30. -/
theorem sortBy_number_orders_numerically_witness :
    (∀ r ∈ (init asciiLowerCase decimalDigits numbersPage).rows,
      hasIntegerValue (some 0) r = true)
    ∧ (participating (sortBy asciiLowerCase decimalDigits
        (init asciiLowerCase decimalDigits numbersPage) (some 0) (some "number") 0
        (some "asc")).1.tbody).Pairwise
        (fun a b => ∃ aCell bCell,
          childAt a (some 0) = some aCell ∧ childAt b (some 0) = some bCell
          ∧ (parseNumber aCell.dataValue).le (parseNumber bCell.dataValue)) :=
  ⟨by decide,
    (sortBy_number_orders_numerically asciiLowerCase decimalDigits
      (init asciiLowerCase decimalDigits numbersPage) (some 0) 0
      (init_consistent asciiLowerCase decimalDigits numbersPage (by decide))
      (by decide)).1.2.2.2⟩

/-- On a table whose participating rows all have a cell in the clicked column, a click on
the sortable header at position `i` sorts the participating rows ascending when the header
carries neither sort marker, descending when it is the active ascending header, and
ascending when it is the active descending header; afterwards the URL's `sort` parameter is
the header's column index as a string and its `dir` parameter is the resulting
direction. -/
theorem click_toggles_direction_of_hasColumn (toLowerCase : String → String)
    (largeIntegerToString : Int → String) (t : Table) (i : Nat) (th : Header)
    (hc : Consistent t) (hth : t.headers[i]? = some th)
    (hcol : HasColumn (parseInt th.index) t.rows) :
    (th.sortedAsc = false →
      Ascending toLowerCase (parseInt th.index) (some (orElse th.type "text"))
          (participating (click toLowerCase largeIntegerToString t i).tbody)
        ∧ getParam (click toLowerCase largeIntegerToString t i).url "dir" = some "asc")
    ∧ (th.sortedAsc = true →
      Descending toLowerCase (parseInt th.index) (some (orElse th.type "text"))
          (participating (click toLowerCase largeIntegerToString t i).tbody)
        ∧ getParam (click toLowerCase largeIntegerToString t i).url "dir" = some "desc")
    ∧ getParam (click toLowerCase largeIntegerToString t i).url "sort"
        = some (numberToString largeIntegerToString (parseInt th.index))
    ∧ (participating (click toLowerCase largeIntegerToString t i).tbody).Perm
        (participating t.tbody) := by
  rw [click_eq toLowerCase largeIntegerToString t i th hth]
  have hord := sortBy_inOrder toLowerCase largeIntegerToString t hc (parseInt th.index)
    (some (orElse th.type "text")) i none hcol
  have hdir := sortBy_url_dir toLowerCase largeIntegerToString t (parseInt th.index)
    (some (orElse th.type "text")) i none hcol
  rw [sortDirection_click t.headers i th hth] at hord hdir
  refine ⟨?_, ?_, sortBy_url_sort toLowerCase largeIntegerToString t _ _ _ _ hcol,
    sortBy_participating_perm toLowerCase largeIntegerToString t hc _ _ _ _ hcol⟩
  · intro h
    simp only [h, Bool.false_eq_true, if_false] at hord hdir
    exact ⟨by simpa [InOrder] using hord, hdir⟩
  · intro h
    simp only [h, if_true] at hord hdir
    have hne : ("desc" : String) ≠ "asc" := by decide
    exact ⟨by simpa [InOrder, hne] using hord, hdir⟩

/-- C3, the defect: on the page with a row that has no cell in column 1, loaded with
`?sort=0&dir=asc`, the second header carries no marker; the click on it moves the marker to
it, then the comparator throws on the short row, and the URL still has `sort=0`, not the
clicked header's column index 1. On the same page with both rows complete the click leaves
`sort=1` and `dir=asc`. -/
theorem click_throw_leaves_url_stale :
    (init asciiLowerCase decimalDigits shortRowPage).headers.map
        (fun h => (h.index, h.sortedAsc, h.sortedDesc))
      = [(some "0", true, false), (some "1", false, false)]
    ∧ (sortBy asciiLowerCase decimalDigits (init asciiLowerCase decimalDigits shortRowPage)
        (parseInt (some "1")) (some "text") 1 none).2 = false
    ∧ (click asciiLowerCase decimalDigits
        (init asciiLowerCase decimalDigits shortRowPage) 1).headers.map
        (fun h => (h.index, h.sortedAsc, h.sortedDesc))
      = [(some "0", false, false), (some "1", true, false)]
    ∧ getParam (click asciiLowerCase decimalDigits
        (init asciiLowerCase decimalDigits shortRowPage) 1).url "sort" = some "0"
    ∧ getParam (click asciiLowerCase decimalDigits
        (init asciiLowerCase decimalDigits playersPage) 1).url "sort" = some "1"
    ∧ getParam (click asciiLowerCase decimalDigits
        (init asciiLowerCase decimalDigits playersPage) 1).url "dir" = some "asc" := by
  refine ⟨by decide, by decide, by decide, by decide, by decide, by decide⟩

/-- C4, amended: the sort direction defaults to ascending on the first click of a
previously inactive column: for every sortable header that carries no sort marker, on a
table whose participating rows all have a cell in the header's column, clicking it sorts the
participating rows in ascending order and marks the header ascending (marker `sorted-asc`,
no `sorted-desc`, `aria-sort` `ascending`). -/
theorem click_inactive_sorts_ascending (toLowerCase : String → String)
    (largeIntegerToString : Int → String) (t : Table) (i : Nat)
    (th : Header) (hc : Consistent t) (hth : t.headers[i]? = some th)
    (hcol : HasColumn (parseInt th.index) t.rows)
    (hasc : th.sortedAsc = false) (_hdesc : th.sortedDesc = false) :
    Ascending toLowerCase (parseInt th.index) (some (orElse th.type "text"))
        (participating (click toLowerCase largeIntegerToString t i).tbody)
    ∧ ∃ th', (click toLowerCase largeIntegerToString t i).headers[i]? = some th'
        ∧ th'.sortedAsc = true ∧ th'.sortedDesc = false ∧ th'.ariaSort = some "ascending" := by
  rw [click_eq toLowerCase largeIntegerToString t i th hth]
  have hord := sortBy_inOrder toLowerCase largeIntegerToString t hc (parseInt th.index)
    (some (orElse th.type "text")) i none hcol
  obtain ⟨th', hget, _, _, hmark⟩ :=
    sortBy_header_at toLowerCase largeIntegerToString t (parseInt th.index)
      (some (orElse th.type "text")) i none th hth hcol
  rw [sortDirection_click t.headers i th hth] at hord hmark
  simp only [hasc, Bool.false_eq_true, if_false] at hord hmark
  refine ⟨by simpa [InOrder] using hord, th', hget, ?_⟩
  simpa [Header.marks] using hmark

/-- Witness of the amended C4 on the page with the values 10, 2, 30. -/
theorem click_inactive_sorts_ascending_witness :
    HasColumn (parseInt (some "0")) (init asciiLowerCase decimalDigits numbersPage).rows
    ∧ Ascending asciiLowerCase (parseInt (some "0")) (some "number")
        (participating
          (click asciiLowerCase decimalDigits
            (init asciiLowerCase decimalDigits numbersPage) 0).tbody)
    ∧ ∃ th', (click asciiLowerCase decimalDigits
          (init asciiLowerCase decimalDigits numbersPage) 0).headers[0]? = some th'
        ∧ th'.sortedAsc = true ∧ th'.sortedDesc = false ∧ th'.ariaSort = some "ascending" :=
  ⟨by decide,
    click_inactive_sorts_ascending asciiLowerCase decimalDigits
      (init asciiLowerCase decimalDigits numbersPage) 0
      ⟨some "0", some "number", false, false, none⟩
      (init_consistent asciiLowerCase decimalDigits numbersPage (by decide)) rfl
      (by decide) rfl rfl⟩

/-- C4 as stated fails: on the page with the values 10, 2, 30 and an inactive header, the
click marks the header ascending, not descending, and leaves the rows in the order
2, 10, 30, which is not descending. -/
theorem click_inactive_not_descending :
    numbersPage.headers.map (fun h => (h.sortedAsc, h.sortedDesc)) = [(false, false)]
    ∧ (click asciiLowerCase decimalDigits
        (init asciiLowerCase decimalDigits numbersPage) 0).headers.map
        (fun h => (h.sortedAsc, h.sortedDesc, h.ariaSort)) = [(true, false, some "ascending")]
    ∧ participating (click asciiLowerCase decimalDigits
        (init asciiLowerCase decimalDigits numbersPage) 0).tbody
      = [uniformRow 1 false "2" "two", uniformRow 0 false "10" "ten",
          uniformRow 2 false "30" "thirty"]
    ∧ ¬ Descending asciiLowerCase (some 0) (some "number")
        (participating (click asciiLowerCase decimalDigits
          (init asciiLowerCase decimalDigits numbersPage) 0).tbody) := by
  have hrows : participating (click asciiLowerCase decimalDigits
      (init asciiLowerCase decimalDigits numbersPage) 0).tbody
      = [uniformRow 1 false "2" "two", uniformRow 0 false "10" "ten",
          uniformRow 2 false "30" "thirty"] := by decide
  refine ⟨by decide, by decide, hrows, ?_⟩
  intro h
  rw [hrows] at h
  have h12 := (List.pairwise_cons.mp h).1 (uniformRow 0 false "10" "ten") (by simp)
  have hnot : ¬ (parseNumber (some "10")).le (parseNumber (some "2")) := by decide
  apply hnot
  simpa [keyLe, childAt, uniformRow, cellLe] using h12

theorem compareRows_text_eq_zero (toLowerCase : String → String) (colIndex : Option Int)
    (type : Option String) (dir : String) (a b : Row) (aCell bCell : Cell)
    (htype : type ≠ some "number")
    (ha : childAt a colIndex = some aCell) (hb : childAt b colIndex = some bCell)
    (hkey : toLowerCase (trim aCell.textContent) = toLowerCase (trim bCell.textContent)) :
    compareRows toLowerCase colIndex type dir a b = some 0 := by
  have hk : textKey toLowerCase aCell = textKey toLowerCase bCell := by
    unfold textKey
    rw [hkey]
  simp [compareRows, compareCells, ha, hb, htype, hk]

/-- C5, amended: for a text column (any type other than `number`) in which every
participating row has a cell, after `init` and any sequence of clicks, `sortBy` orders the
participating rows by the trimmed, lower-cased text of the cell in that column,
non-decreasing for `'asc'` and non-increasing for `'desc'`; rows whose trimmed, lower-cased
texts are equal compare equal, and the sort is stable with respect to the order the rows had
in the table body when `init` captured them: any two such rows appear in the relative order
they had at page load, whatever sorts came before. -/
theorem sortBy_text_orders_stably (toLowerCase : String → String)
    (largeIntegerToString : Int → String) (page : Page)
    (is : List Nat) (colIndex : Option Int) (th : Nat) (type : Option String)
    (hn : (page.tbody.map Row.id).Nodup) (htype : type ≠ some "number")
    (hcol : HasColumn colIndex (participating page.tbody)) :
    (participating (sortBy toLowerCase largeIntegerToString
        (clicks toLowerCase largeIntegerToString
          (init toLowerCase largeIntegerToString page) is)
        colIndex type th (some "asc")).1.tbody).Pairwise
      (fun a b => ∃ aCell bCell,
        childAt a colIndex = some aCell ∧ childAt b colIndex = some bCell
        ∧ textKey toLowerCase aCell ≤ textKey toLowerCase bCell)
    ∧ (participating (sortBy toLowerCase largeIntegerToString
        (clicks toLowerCase largeIntegerToString
          (init toLowerCase largeIntegerToString page) is)
        colIndex type th (some "desc")).1.tbody).Pairwise
      (fun a b => ∃ aCell bCell,
        childAt a colIndex = some aCell ∧ childAt b colIndex = some bCell
        ∧ textKey toLowerCase bCell ≤ textKey toLowerCase aCell)
    ∧ ∀ (direction : Option String) (a b : Row) (aCell bCell : Cell),
        childAt a colIndex = some aCell → childAt b colIndex = some bCell →
        toLowerCase (trim aCell.textContent) = toLowerCase (trim bCell.textContent) →
        (∀ dir, compareRows toLowerCase colIndex type dir a b = some 0)
        ∧ (List.Sublist [a, b] (participating page.tbody) →
            List.Sublist [a, b]
              (participating (sortBy toLowerCase largeIntegerToString
                (clicks toLowerCase largeIntegerToString
                  (init toLowerCase largeIntegerToString page) is)
                colIndex type th direction).1.tbody)) := by
  have hc : Consistent (clicks toLowerCase largeIntegerToString
      (init toLowerCase largeIntegerToString page) is) :=
    clicks_consistent toLowerCase largeIntegerToString is _
      (init_consistent toLowerCase largeIntegerToString page hn)
  have hrows : (clicks toLowerCase largeIntegerToString
      (init toLowerCase largeIntegerToString page) is).rows = participating page.tbody :=
    (clicks_rows toLowerCase largeIntegerToString is _).trans
      (init_rows toLowerCase largeIntegerToString page)
  have hcol' : HasColumn colIndex (clicks toLowerCase largeIntegerToString
      (init toLowerCase largeIntegerToString page) is).rows := by
    rw [hrows]; exact hcol
  refine ⟨?_, ?_, ?_⟩
  · have h := sortBy_inOrder toLowerCase largeIntegerToString _ hc colIndex type th
      (some "asc") hcol'
    have hd : sortDirection (clicks toLowerCase largeIntegerToString
        (init toLowerCase largeIntegerToString page) is).headers th (some "asc") = "asc" := rfl
    rw [hd] at h
    simp only [InOrder, if_true, Ascending] at h
    exact List.Pairwise.imp
      (fun {a b} hab => keyLe_text toLowerCase colIndex type htype a b hab) h
  · have h := sortBy_inOrder toLowerCase largeIntegerToString _ hc colIndex type th
      (some "desc") hcol'
    have hd : sortDirection (clicks toLowerCase largeIntegerToString
        (init toLowerCase largeIntegerToString page) is).headers th (some "desc")
          = "desc" := rfl
    have hne : ("desc" : String) ≠ "asc" := by decide
    rw [hd] at h
    simp only [InOrder, hne, if_false, Descending] at h
    refine List.Pairwise.imp (fun {a b} hab => ?_) h
    obtain ⟨bCell, aCell, hb, ha, hle⟩ := keyLe_text toLowerCase colIndex type htype b a hab
    exact ⟨aCell, bCell, ha, hb, hle⟩
  · intro direction a b aCell bCell ha hb hkey
    have hzero : ∀ dir, compareRows toLowerCase colIndex type dir a b = some 0 :=
      fun dir => compareRows_text_eq_zero toLowerCase colIndex type dir a b aCell bCell
        htype ha hb hkey
    refine ⟨hzero, fun hsub => ?_⟩
    rw [sortBy_participating toLowerCase largeIntegerToString _ hc colIndex type th direction
      hcol']
    apply sortedRows_stable
    · have h0 := hzero (sortDirection (clicks toLowerCase largeIntegerToString
        (init toLowerCase largeIntegerToString page) is).headers th direction)
      have hcells : compareRows toLowerCase colIndex type
          (sortDirection (clicks toLowerCase largeIntegerToString
            (init toLowerCase largeIntegerToString page) is).headers th direction) a b
          = some (compareOrBlank toLowerCase colIndex type
              (sortDirection (clicks toLowerCase largeIntegerToString
                (init toLowerCase largeIntegerToString page) is).headers th direction)
              a b) := by
        simp [compareRows, compareOrBlank, cellOrBlank, ha, hb]
      rw [hcells] at h0
      rw [Option.some.inj h0]
    · rw [hrows]; exact hsub

/-- Witness of the amended C5: on the players page, after a click on the name column, the
ascending sort by group keeps the two players of equal group in their page-load order. -/
theorem sortBy_text_orders_stably_witness :
    (playersPage.tbody.map Row.id).Nodup
    ∧ HasColumn (some 1) (participating playersPage.tbody)
    ∧ List.Sublist [playerRow 0 "Bob" "x", playerRow 1 "ann" " X "]
        (participating (sortBy asciiLowerCase decimalDigits
          (clicks asciiLowerCase decimalDigits
            (init asciiLowerCase decimalDigits playersPage) [0]) (some 1) none 1
            (some "asc")).1.tbody) :=
  ⟨by decide, by decide,
    ((sortBy_text_orders_stably asciiLowerCase decimalDigits playersPage [0] (some 1) 1 none
      (by decide) (by decide) (by decide)).2.2 (some "asc") (playerRow 0 "Bob" "x")
        (playerRow 1 "ann" " X ") ⟨none, "x"⟩ ⟨none, " X "⟩ rfl rfl (by decide)).2
      (List.Sublist.refl _)⟩

/-- C5 as stated fails: on the players page both players have the group key "x". After a
click on the name column the body holds row 1 before row 0; the following click on the
group column puts row 0 before row 1, so the two rows of equal key do not keep the relative
order they had in the body immediately before the sort. -/
theorem sortBy_text_not_stable_wrt_body :
    textKey asciiLowerCase ⟨none, "x"⟩ = textKey asciiLowerCase ⟨none, " X "⟩
    ∧ playersPage.tbody.map (fun r => (r.id, childAt r (some 1)))
      = [(0, some ⟨none, "x"⟩), (1, some ⟨none, " X "⟩)]
    ∧ (click asciiLowerCase decimalDigits
        (init asciiLowerCase decimalDigits playersPage) 0).tbody.map Row.id = [1, 0]
    ∧ (click asciiLowerCase decimalDigits (click asciiLowerCase decimalDigits
        (init asciiLowerCase decimalDigits playersPage) 0) 1).tbody.map Row.id = [0, 1]
    ∧ List.Sublist [1, 0]
        ((click asciiLowerCase decimalDigits
          (init asciiLowerCase decimalDigits playersPage) 0).tbody.map Row.id)
    ∧ ¬ List.Sublist [1, 0]
        ((click asciiLowerCase decimalDigits (click asciiLowerCase decimalDigits
          (init asciiLowerCase decimalDigits playersPage) 0) 1).tbody.map Row.id) := by
  refine ⟨by decide, by decide, by decide, by decide, by decide, by decide⟩

/-- C6, amended: for every sort that completes (every participating row has a cell in the
column), rows carrying the class `empty` are never among the rows that are compared or
re-attached, and they are never moved themselves: the body after the sort is the
placeholder rows in their old order followed by the re-attached rows. As the participating
rows are re-appended behind them, a placeholder row moves up by the number of participating
rows that preceded it; it stays at the same position when no participating row preceded
it. -/
theorem sortBy_keeps_placeholders_in_front (toLowerCase : String → String)
    (largeIntegerToString : Int → String) (t : Table)
    (colIndex : Option Int) (type : Option String) (th : Nat) (direction : Option String)
    (hc : Consistent t) (hcol : HasColumn colIndex t.rows) :
    (∀ r ∈ t.rows, r.empty = false)
    ∧ (∃ sorted, sorted.Perm t.rows
        ∧ (sortBy toLowerCase largeIntegerToString t colIndex type th direction).1.tbody
            = placeholders t.tbody ++ sorted)
    ∧ placeholders
        (sortBy toLowerCase largeIntegerToString t colIndex type th direction).1.tbody
        = placeholders t.tbody
    ∧ (∀ i r, t.tbody[i]? = some r → r.empty = true →
        (sortBy toLowerCase largeIntegerToString t colIndex type th direction).1.tbody[
          (t.tbody.take i).countP (fun q => q.empty)]? = some r)
    ∧ (∀ i r, t.tbody[i]? = some r → r.empty = true →
        (∀ q ∈ t.tbody.take i, q.empty = true) →
        (sortBy toLowerCase largeIntegerToString t colIndex type th direction).1.tbody[i]?
          = some r) := by
  have hidx : ∀ i r, t.tbody[i]? = some r → r.empty = true →
      (sortBy toLowerCase largeIntegerToString t colIndex type th direction).1.tbody[
        (t.tbody.take i).countP (fun q => q.empty)]? = some r := by
    intro i r hi he
    have h := getElem?_filter_countP (fun q => q.empty) t.tbody i r hi he
    rw [sortBy_tbody toLowerCase largeIntegerToString t hc colIndex type th direction hcol]
    have hlt : (t.tbody.take i).countP (fun q => q.empty) < (placeholders t.tbody).length := by
      by_contra hge
      have := List.getElem?_eq_none (Nat.le_of_not_lt hge)
      unfold placeholders at this
      rw [this] at h
      exact absurd h (by simp)
    rw [List.getElem?_append_left hlt]
    exact h
  refine ⟨rows_not_empty_of_consistent t hc, ⟨_, sortedRows_perm _ _ _ _ _,
    sortBy_tbody toLowerCase largeIntegerToString t hc colIndex type th direction hcol⟩,
    sortBy_placeholders toLowerCase largeIntegerToString t hc colIndex type th direction hcol,
    hidx, ?_⟩
  intro i r hi he hall
  have h := hidx i r hi he
  have hcount : (t.tbody.take i).countP (fun q => q.empty) = i := by
    have hlen : (t.tbody.take i).length = i := by
      have hlt : i < t.tbody.length := by
        by_contra hge
        rw [List.getElem?_eq_none (Nat.le_of_not_lt hge)] at hi
        exact absurd hi (by simp)
      simp [List.length_take, Nat.min_eq_left (Nat.le_of_lt hlt)]
    rw [List.countP_eq_length.mpr (fun q hq => hall q hq), hlen]
  rw [hcount] at h
  exact h

/-- Witness of the amended C6 on the page whose placeholder row stands between two
participating rows: the placeholder, second before the sort, is first after it. -/
theorem sortBy_keeps_placeholders_in_front_witness :
    HasColumn (some 0) (init asciiLowerCase decimalDigits placeholderPage).rows
    ∧ (sortBy asciiLowerCase decimalDigits (init asciiLowerCase decimalDigits placeholderPage)
        (some 0) (some "number") 0 (some "asc")).1.tbody[0]?
      = some (uniformRow 1 true "" "No players") :=
  ⟨by decide,
    (sortBy_keeps_placeholders_in_front asciiLowerCase decimalDigits
      (init asciiLowerCase decimalDigits placeholderPage) (some 0)
      (some "number") 0 (some "asc")
      (init_consistent asciiLowerCase decimalDigits placeholderPage (by decide))
      (by decide)).2.2.2.1 1 (uniformRow 1 true "" "No players") rfl rfl⟩

/-- C6 as stated fails: on the page whose body is a participating row, a placeholder row
and a participating row, the placeholder row is at position 1 before the sort and at
position 0 after it. -/
theorem sortBy_relocates_placeholder :
    (init asciiLowerCase decimalDigits placeholderPage).tbody.map (fun r => (r.id, r.empty))
      = [(0, false), (1, true), (2, false)]
    ∧ (sortBy asciiLowerCase decimalDigits (init asciiLowerCase decimalDigits placeholderPage)
        (some 0) (some "number") 0 (some "asc")).1.tbody.map (fun r => (r.id, r.empty))
      = [(1, true), (2, false), (0, false)] := by
  refine ⟨by decide, by decide⟩

/-- On a table whose participating rows all have a cell at `colIndex`, after `sortBy` on
the sortable header at position `th` exactly one sortable header carries a sort marker; it
is the header passed to `sortBy`, with the marker and the `aria-sort` of the direction used,
and every other sortable header has no marker and `aria-sort` `none`. -/
theorem sortBy_marks_one_header_of_hasColumn (toLowerCase : String → String)
    (largeIntegerToString : Int → String) (t : Table)
    (colIndex : Option Int) (type : Option String) (th : Nat) (direction : Option String)
    (hth : th < t.headers.length) (hcol : HasColumn colIndex t.rows) :
    (sortBy toLowerCase largeIntegerToString t colIndex type th direction).1.headers.countP
        (fun h => h.sortedAsc || h.sortedDesc) = 1
    ∧ (∃ h', (sortBy toLowerCase largeIntegerToString t colIndex type th
          direction).1.headers[th]? = some h'
        ∧ h'.marks (sortDirection t.headers th direction))
    ∧ (∀ j h', j ≠ th →
        (sortBy toLowerCase largeIntegerToString t colIndex type th
          direction).1.headers[j]? = some h' → h'.unmarked) := by
  refine ⟨sortBy_countP_marked toLowerCase largeIntegerToString t colIndex type th direction
    hth hcol, ?_, ?_⟩
  · obtain ⟨h, hh⟩ : ∃ h, t.headers[th]? = some h :=
      ⟨t.headers[th], List.getElem?_eq_getElem hth⟩
    obtain ⟨h', hget, _, _, hmark⟩ :=
      sortBy_header_at toLowerCase largeIntegerToString t colIndex type th direction h hh hcol
    exact ⟨h', hget, hmark⟩
  · intro j h' hne hj
    have hlt : j < t.headers.length := by
      rw [← sortBy_headers_length toLowerCase largeIntegerToString t colIndex type th direction]
      by_contra hge
      rw [List.getElem?_eq_none (Nat.le_of_not_lt hge)] at hj
      exact absurd hj (by simp)
    obtain ⟨h'', hget, _, _, hun⟩ := sortBy_header_other toLowerCase largeIntegerToString t
      colIndex type th direction j t.headers[j] (List.getElem?_eq_getElem hlt) hne hcol
    rw [hget] at hj
    rw [← Option.some.inj hj]
    exact hun

/-- C7, the defect: on the page with a row that has no cell in column 1, loaded with
`?sort=0&dir=asc`, the first header is the marked one, with `aria-sort` `ascending`. The call
`sortBy(1, 'text', th)` of the click on the second header moves the marker, then the
comparator throws: afterwards the second header carries `sorted-asc` with `aria-sort`
absent, and the first header carries no marker with `aria-sort` still `ascending`. -/
theorem sortBy_throw_splits_marker_and_aria :
    (init asciiLowerCase decimalDigits shortRowPage).headers.map
        (fun h => (h.sortedAsc, h.sortedDesc, h.ariaSort))
      = [(true, false, some "ascending"), (false, false, some "none")]
    ∧ (sortBy asciiLowerCase decimalDigits (init asciiLowerCase decimalDigits shortRowPage)
        (parseInt (some "1")) (some "text") 1 none).2 = false
    ∧ (sortBy asciiLowerCase decimalDigits (init asciiLowerCase decimalDigits shortRowPage)
        (parseInt (some "1")) (some "text") 1 none).1.headers.map
        (fun h => (h.sortedAsc, h.sortedDesc, h.ariaSort))
      = [(false, false, some "ascending"), (true, false, some "none")] := by
  refine ⟨by decide, by decide, by decide⟩

/-- C8, the defects: on the page with a row that has no cell in column 1, loaded with
`?sort=1&dir=asc`, `init` finds the second header, `sortBy` marks it and throws: the header
has no `aria-sort` and the rows are as they were. On the page whose second header has
`data-index` `01`, loaded with `?sort=01&dir=desc`, the sort is applied and the URL's `sort`
parameter afterwards is `1`, not `01`; loaded with `?sort=1&dir=desc`, no header is found
and no sort is applied. On the players page loaded with `?sort=1&dir=desc` the second
header ends with `aria-sort` `descending` and the URL is as it was. -/
theorem init_throw_leaves_aria_unset :
    ((findHeader "1" shortRowPageFromUrl.headers).map (fun p => p.1) = some 1
      ∧ (init asciiLowerCase decimalDigits shortRowPageFromUrl).headers.map
          (fun h => (h.sortedAsc, h.sortedDesc, h.ariaSort))
        = [(false, false, none), (true, false, none)]
      ∧ (init asciiLowerCase decimalDigits shortRowPageFromUrl).tbody
        = shortRowPageFromUrl.tbody)
    ∧ ((findHeader "01" paddedIndexPage.headers).map (fun p => p.1) = some 1
      ∧ (init asciiLowerCase decimalDigits paddedIndexPage).tbody.map Row.id = [1, 0]
      ∧ getParam (init asciiLowerCase decimalDigits paddedIndexPage).url "sort" = some "1"
      ∧ findHeader "1" paddedIndexPageCanonicalUrl.headers = none
      ∧ (init asciiLowerCase decimalDigits paddedIndexPageCanonicalUrl).tbody.map Row.id
        = [0, 1])
    ∧ ((init asciiLowerCase decimalDigits playersPageFromUrl).headers.map
          (fun h => (h.sortedAsc, h.sortedDesc, h.ariaSort))
        = [(false, false, some "none"), (false, true, some "descending")]
      ∧ getParam (init asciiLowerCase decimalDigits playersPageFromUrl).url "sort" = some "1"
      ∧ getParam (init asciiLowerCase decimalDigits playersPageFromUrl).url "dir"
        = some "desc") := by
  refine ⟨⟨by decide, by decide, by decide⟩,
    ⟨by decide, by decide, by decide, by decide, by decide⟩,
    ⟨by decide, by decide, by decide⟩⟩

end Tournifyx
